import Mathlib

/-!
MultimeterBoard: verification of the application control loop.

Shallow embedding of `Application/multimeter.c` (target device CC1350) and of
the declarations of `PROFILES/multimeter_gatt_profile.h`, followed by theorems
about the sample filter, the acquisition cycle and the mode controller.

Conventions of the embedding:

* `uint32_t` / `uint8_t` values are natural numbers; the well-typedness bound
  (`< 2 ^ 32`, `< 256`) is a hypothesis where it matters.
* A C array is a `List Nat`; `x[i]` is `x.getD i 0`, which is the C access
  whenever `i < x.length` (all theorems about `getMedian` assume
  `x.length = n`, the contract of the C function).
* A C `for` loop over an index range is a `List.foldl` over `List.range'`.
* The `int` length `n` of `getMedian` is a natural number: the only caller
  passes `ADC_BUFFER_SIZE`, and for `n = 0` the loops do not run, as in C.
-/

namespace Multimeter

/-! ## The sample filter (`getMedian`) -/

/-- Body of the inner loop of `getMedian`:
`if (x[j] < x[i]) { temp = x[i]; x[i] = x[j]; x[j] = temp; }`. -/
def swapStep (i j : Nat) (x : List Nat) : List Nat :=
  if x.getD j 0 < x.getD i 0 then
    (x.set i (x.getD j 0)).set j (x.getD i 0)
  else x

/-- Inner loop of `getMedian`: `for (j = i+1; j < n; j++) { ... }`. -/
def innerLoop (n i : Nat) (x : List Nat) : List Nat :=
  (List.range' (i + 1) (n - (i + 1))).foldl (fun acc j => swapStep i j acc) x

/-- Outer loop of `getMedian`: `for (i = 0; i < n-1; i++) { ... }`; the value
is the array `x` as the two loops leave it. -/
def sortLoops (n : Nat) (x : List Nat) : List Nat :=
  (List.range' 0 (n - 1)).foldl (fun acc i => innerLoop n i acc) x

/-- Return value of `getMedian(n, x)`: `x[n/2]` after the two loops. -/
def getMedian (n : Nat) (x : List Nat) : Nat :=
  (sortLoops n x).getD (n / 2) 0

/-- Functional reading of one pass of the inner loop of `getMedian` over the
cells that follow position `i` (used only to reason about `innerLoop`): `a` is
the content of `x[i]`, the list holds the cells still to visit; the result is
the final `x[i]` together with the visited cells. -/
def sel : Nat → List Nat → Nat × List Nat
  | a, [] => (a, [])
  | a, b :: t =>
    if b < a then ((sel b t).1, a :: (sel b t).2) else ((sel a t).1, b :: (sel a t).2)

/-! ## Double-precision arithmetic

The scaling expressions of `Multimeter_performPeriodicTask` are evaluated in
C `double`.  On the target (ARM Cortex-M3, EABI) `double` is IEEE-754 binary64
with round-to-nearest, ties-to-even.  A finite double is represented by the
rational number it denotes; an operation whose result is not a finite double
(overflow, division by zero) yields `none`. -/

/-- Round a rational to the nearest integer, ties to the even integer. -/
def roundHalfEven (q : ℚ) : ℤ :=
  if q - ⌊q⌋ < 1 / 2 then ⌊q⌋
  else if 1 / 2 < q - ⌊q⌋ then ⌊q⌋ + 1
  else if ⌊q⌋ % 2 = 0 then ⌊q⌋
  else ⌊q⌋ + 1

/-- Exponent of the binade of `q`, clamped below at the smallest normal
exponent of binary64 (`-1022`). -/
def binadeExp (q : ℚ) : ℤ := max (Int.log 2 |q|) (-1022)

/-- Exponent of the unit in the last place of binary64 at the magnitude of `q`
(53-bit significand; subnormals share the ulp `2 ^ (-1074)`). -/
def ulpExp (q : ℚ) : ℤ := binadeExp q - 52

/-- Round `q` to the nearest multiple of its ulp, ties to even (binary64
rounding with the exponent unbounded above). -/
def roundUnbounded (q : ℚ) : ℚ := (roundHalfEven (q / 2 ^ ulpExp q) : ℚ) * 2 ^ ulpExp q

/-- IEEE-754 binary64 rounding of an exact value; `none` when the result
overflows the format. -/
def roundDouble (q : ℚ) : Option ℚ :=
  if |roundUnbounded q| < 2 ^ (1024 : ℕ) then some (roundUnbounded q) else none

/-- Double division `a / b`. -/
def fdiv (a b : ℚ) : Option ℚ := if b = 0 then none else roundDouble (a / b)

/-- Double subtraction `a - b`. -/
def fsub (a b : ℚ) : Option ℚ := roundDouble (a - b)

/-- Truncation toward zero. -/
def truncToZero (q : ℚ) : ℤ := if 0 ≤ q then ⌊q⌋ else ⌈q⌉

/-- Conversion of a double to `uint32_t` (C11 6.3.1.4): the value is truncated
toward zero; when the truncated value is not representable the behaviour is
undefined, rendered as `none`. -/
def d2u (q : ℚ) : Option ℕ :=
  if 0 ≤ truncToZero q ∧ truncToZero q < 2 ^ 32 then some (truncToZero q).toNat else none

/-- Range-B scaling, `adcValue0MicroVolt = adcValue0MicroVolt/0.3;`: the
`uint32_t` operand is converted to double (exactly), divided by the double
nearest to the literal `0.3`, and the quotient is converted back. -/
def scale10V (m : Nat) : Option Nat :=
  (roundDouble (3 / 10)).bind fun c =>
  (fdiv (m : ℚ) c).bind fun q =>
  d2u q

/-- Range-C scaling, `adcValue0MicroVolt = adcValue0MicroVolt/6.85 - 1200;`. -/
def scale500mA (m : Nat) : Option Nat :=
  (roundDouble (685 / 100)).bind fun c =>
  (fdiv (m : ℚ) c).bind fun q =>
  (fsub q 1200).bind fun d =>
  d2u d

/-! ## Constants (`multimeter_gatt_profile.h`, `multimeter.c`) -/

def MultimeterMode_Off : Nat := 0
def MultimeterMode_3V : Nat := 1
def MultimeterMode_10V : Nat := 2
def MultimeterMode_500mA : Nat := 3
def MultimeterMode_Ohm : Nat := 4

def MULTIMETERPROFILE_CHAR1 : Nat := 0
def MULTIMETERPROFILE_CHAR4 : Nat := 3
def MULTIMETERPROFILE_CHAR4_LEN : Nat := 4

def ADC_BUFFER_SIZE : Nat := 100

def SBP_STATE_CHANGE_EVT : Nat := 0x0001
def SBP_CHAR_CHANGE_EVT : Nat := 0x0002
def SBP_PERIODIC_EVT : Nat := 0x0004
def SBP_CONN_EVT_END_EVT : Nat := 0x0008

/-! ## Application state and the calls into the collaborators -/

/-- The two front-end switch lines of `gpioPinTable`. -/
inductive Pin
  | Board_DIO21
  | Board_DIO22
  deriving DecidableEq, Repr

/-- The fields of a `gattMsgEvent_t` that the application reads, and an
identifier `ident` standing for the address of the message. -/
structure GattMsg where
  ident : Nat
  status : Nat
  connHandle : Nat
  method : Nat
  deriving DecidableEq, Repr

/-- An application event `sbpEvt_t` (header fields `event` and `state`). -/
structure SbpEvt where
  event : Nat
  state : Nat
  deriving DecidableEq, Repr

/-- Calls made by the application into its collaborators (clock, ADC driver,
GPIO driver, profile store, GATT/HCI/ICall), in the order they are issued.
`Display_print` calls, a logging sink, are not recorded. -/
inductive Effect
  | stopClock
  | startClock
  | adcOpen
  | adcConvertCancel
  | adcClose
  | adcConvert
  | adcAdjustRawValues
  | adcConvertAdjustedToMicroVolts
  | setChar1 (value : Nat)
  | setChar4 (bytes : List Nat)
  | pinSet (pin : Pin) (value : Nat)
  | connEventNotice (connHandle : Nat) (flags : Nat)
  | gattSendRsp (msg : GattMsg)
  | gattBmFree (msg : GattMsg)
  | icallFreeMsg (msg : GattMsg)
  deriving DecidableEq, Repr

/-- The global variables of `multimeter.c` that the control loop uses, the
state of the collaborators it drives, and the log of calls made so far. -/
structure AppState where
  /-- `bool multimeterIsOn` -/
  multimeterIsOn : Bool
  /-- `uint8_t multimeterMode` -/
  multimeterMode : Nat
  /-- `uint32_t microVoltBuffer[ADC_BUFFER_SIZE]` -/
  microVoltBuffer : List Nat
  /-- `uint32_t adcValue0MicroVolt` -/
  adcValue0MicroVolt : Nat
  /-- `uint8_t value2copy[MULTIMETERPROFILE_CHAR4_LEN]` -/
  value2copy : List Nat
  /-- `gattMsgEvent_t *pAttRsp` (`none` is `NULL`) -/
  pAttRsp : Option GattMsg
  /-- `uint8_t rspTxRetry` -/
  rspTxRetry : Nat
  /-- `uint16_t events` -/
  events : Nat
  /-- Content of `appMsgQueue`, oldest first. -/
  appMsgQueue : List SbpEvt
  /-- Profile store: value of characteristic 1 (the mode). -/
  char1 : Nat
  /-- Profile store: value of characteristic 4 (the published measurement). -/
  char4 : List Nat
  /-- ADCBuf driver: whether the peripheral is open. -/
  adcIsOpen : Bool
  /-- `periodicClock`: whether the one-shot clock is running. -/
  clockActive : Bool
  /-- Output value of `Board_DIO21`. -/
  dio21 : Nat
  /-- Output value of `Board_DIO22`. -/
  dio22 : Nat
  /-- Calls issued so far, oldest first. -/
  trace : List Effect
  deriving DecidableEq, Repr

/-- State when `Multimeter_init` returns: globals at their initialisers, both
characteristics zero, ADC closed, clock constructed but not started, both
switch lines low (`PIN_GPIO_LOW`). -/
def initState : AppState :=
  { multimeterIsOn := false
    multimeterMode := 0
    microVoltBuffer := List.replicate ADC_BUFFER_SIZE 0
    adcValue0MicroVolt := 0
    value2copy := [0, 0, 0, 0]
    pAttRsp := none
    rspTxRetry := 0
    events := 0
    appMsgQueue := []
    char1 := MultimeterMode_Off
    char4 := [0, 0, 0, 0]
    adcIsOpen := false
    clockActive := false
    dio21 := 0
    dio22 := 0
    trace := [] }

/-- Append a call to the log. -/
def AppState.emit (s : AppState) (e : Effect) : AppState :=
  { s with trace := s.trace ++ [e] }

/-- `Util_stopClock(&periodicClock)` (TI-RTOS utility). -/
def Util_stopClock (s : AppState) : AppState :=
  { s.emit Effect.stopClock with clockActive := false }

/-- `Util_startClock(&periodicClock)` (TI-RTOS utility). -/
def Util_startClock (s : AppState) : AppState :=
  { s.emit Effect.startClock with clockActive := true }

/-- `ADCBuf_convertCancel(adcBuf)` (TI driver). -/
def ADCBuf_convertCancel (s : AppState) : AppState :=
  s.emit Effect.adcConvertCancel

/-- `ADCBuf_close(adcBuf)` (TI driver). -/
def ADCBuf_close (s : AppState) : AppState :=
  { s.emit Effect.adcClose with adcIsOpen := false }

/-- `adcBuf = ADCBuf_open(Board_ADCBUF0, &adcBufParams)` (TI driver); `ok`
says whether the driver returns a handle (`true`) or `NULL` (`false`), in
which case the peripheral is not opened. -/
def ADCBuf_open (ok : Bool) (s : AppState) : AppState :=
  { s.emit Effect.adcOpen with adcIsOpen := s.adcIsOpen || ok }

/-- `PIN_setOutputValue(gpioPinHandle, pin, value)` (TI driver). -/
def PIN_setOutputValue (pin : Pin) (value : Nat) (s : AppState) : AppState :=
  match pin with
  | Pin.Board_DIO21 => { s.emit (Effect.pinSet pin value) with dio21 := value }
  | Pin.Board_DIO22 => { s.emit (Effect.pinSet pin value) with dio22 := value }

/-- Modelled from the spec: `MultimeterProfile_SetParameter` for
`MULTIMETERPROFILE_CHAR4` (defined in `multimeter_gatt_profile.c`, of which
only the header is available): the call stores the 4 bytes as the published
measurement characteristic. -/
def MultimeterProfile_SetParameter_CHAR4 (bytes : List Nat) (s : AppState) : AppState :=
  { s.emit (Effect.setChar4 bytes) with char4 := bytes }

/-- Modelled from the spec: `MultimeterProfile_SetParameter` for
`MULTIMETERPROFILE_CHAR1` (defined in `multimeter_gatt_profile.c`): the call
stores the mode characteristic. -/
def MultimeterProfile_SetParameter_CHAR1 (value : Nat) (s : AppState) : AppState :=
  { s.emit (Effect.setChar1 value) with char1 := value }

/-- Modelled from the spec: `MultimeterProfile_GetParameter` for
`MULTIMETERPROFILE_CHAR1` (defined in `multimeter_gatt_profile.c`): the call
reads the mode characteristic last written to the profile store. -/
def MultimeterProfile_GetParameter_CHAR1 (s : AppState) : Nat := s.char1

/-! ## The mode controller -/

/-- `Multimeter_processCharValueChangeEvt(paramID)`.  `openOk` is the outcome of
`ADCBuf_open` should the function call it.  The result is `none` when the
function does not return (the `while (1);` after a failed open). -/
def Multimeter_processCharValueChangeEvt (paramID : Nat) (openOk : Bool) (s : AppState) :
    Option AppState :=
  if paramID = MULTIMETERPROFILE_CHAR1 then
    let s := { s with multimeterMode := MultimeterProfile_GetParameter_CHAR1 s }
    if s.multimeterMode = MultimeterMode_Off ∨ s.multimeterMode = MultimeterMode_Ohm then
      if s.multimeterIsOn then
        let s := Util_stopClock s
        let s := { s with multimeterIsOn := false }
        let s := ADCBuf_convertCancel s
        let s := ADCBuf_close s
        let s := MultimeterProfile_SetParameter_CHAR4 [0, 0, 0, 0] s
        let s := PIN_setOutputValue Pin.Board_DIO21 0 s
        let s := PIN_setOutputValue Pin.Board_DIO22 0 s
        some s
      else some s
    else do
      let s ←
        if !s.multimeterIsOn then
          let s := { s with multimeterIsOn := true }
          let s := Util_startClock s
          let s := ADCBuf_open openOk s
          if openOk then some s else none
        else some s
      if s.multimeterMode = MultimeterMode_3V then
        let s := PIN_setOutputValue Pin.Board_DIO21 0 s
        let s := PIN_setOutputValue Pin.Board_DIO22 0 s
        some s
      else if s.multimeterMode = MultimeterMode_10V then
        let s := PIN_setOutputValue Pin.Board_DIO21 0 s
        let s := PIN_setOutputValue Pin.Board_DIO22 1 s
        some s
      else if s.multimeterMode = MultimeterMode_500mA then
        let s := PIN_setOutputValue Pin.Board_DIO21 1 s
        some s
      else some s
  else some s

/-- The event `ModeChanged(mode)`: the peer writes `mode` to characteristic 1
of the profile, the profile calls `Multimeter_charValueChangeCB`, which queues
`SBP_CHAR_CHANGE_EVT` for `MULTIMETERPROFILE_CHAR1`, and the task processes it
with `Multimeter_processCharValueChangeEvt`. -/
def modeChanged (mode : Nat) (openOk : Bool) (s : AppState) : Option AppState :=
  Multimeter_processCharValueChangeEvt MULTIMETERPROFILE_CHAR1 openOk { s with char1 := mode }

/-! ## The acquisition cycle -/

/-- What the ADC driver does during one cycle: the status of each of the three
driver calls (`true` is `ADCBuf_STATUS_SUCCESS`) and the content that
`ADCBuf_convertAdjustedToMicroVolts` writes to `microVoltBuffer`. -/
structure AdcCycle where
  convertOk : Bool
  adjustOk : Bool
  toMicroVoltsOk : Bool
  microVolts : List Nat
  deriving DecidableEq, Repr

/-- The driver fills the whole buffer with `uint32_t` values. -/
def AdcCycle.WellFormed (adc : AdcCycle) : Prop :=
  adc.microVolts.length = ADC_BUFFER_SIZE ∧ ∀ v ∈ adc.microVolts, v < 2 ^ 32

/-- Overflow check and mode-dependent conversion of the median, the
`if / else if / else if` chain of `Multimeter_performPeriodicTask`;
`(unsigned int)-1` is `2 ^ 32 - 1`. -/
def scaleMeasurement (mode : Nat) (v : Nat) : Option Nat :=
  if v > 3000000 then some 4294967295
  else if mode = MultimeterMode_10V then scale10V v
  else if mode = MultimeterMode_500mA then scale500mA v
  else some v

/-- Byte `k` of the object representation of a `uint32_t` (the target is
little-endian): `((uint8_t*)&v)[k]`. -/
def byteAt (v : Nat) (k : Nat) : Nat := (v / 256 ^ k) % 256

/-- The loop `for (i = 0; i < MULTIMETERPROFILE_CHAR4_LEN; ++i)
value2copy[i] = ((uint8_t*)&adcValue0MicroVolt)[3-i];`, which assigns every
cell of `value2copy`. -/
def serialize (v : Nat) : List Nat :=
  (List.range' 0 MULTIMETERPROFILE_CHAR4_LEN).map (fun i => byteAt v (3 - i))

/-- Decoding of 4 bytes as a big-endian unsigned integer (what a peer reading
the characteristic most-significant byte first obtains). -/
def decodeBigEndian (bytes : List Nat) : Nat :=
  bytes.foldl (fun acc b => acc * 256 + b) 0

/-- `Multimeter_performPeriodicTask()`.  The result is `none` when the
conversion of the scaled double to `uint32_t` is undefined. -/
def Multimeter_performPeriodicTask (adc : AdcCycle) (s : AppState) : Option AppState :=
  let s := s.emit Effect.adcConvert
  if adc.convertOk then
    let s := s.emit Effect.adcAdjustRawValues
    if adc.adjustOk then
      let s := s.emit Effect.adcConvertAdjustedToMicroVolts
      if adc.toMicroVoltsOk then
        let s := { s with microVoltBuffer := adc.microVolts }
        let s := { s with
          adcValue0MicroVolt := getMedian ADC_BUFFER_SIZE s.microVoltBuffer
          microVoltBuffer := sortLoops ADC_BUFFER_SIZE s.microVoltBuffer }
        (scaleMeasurement s.multimeterMode s.adcValue0MicroVolt).map fun v =>
          let s := { s with adcValue0MicroVolt := v }
          let s := { s with value2copy := serialize s.adcValue0MicroVolt }
          MultimeterProfile_SetParameter_CHAR4 s.value2copy s
      else some s
    else some s
  else some s


/-- The state reached from `initState` once the peer has selected Range-A:
acquisition running, ADC open, clock armed, both switch lines low. -/
def runningRangeA : AppState :=
  { initState with
    multimeterIsOn := true
    multimeterMode := MultimeterMode_3V
    char1 := MultimeterMode_3V
    adcIsOpen := true
    clockActive := true
    trace := [Effect.startClock, Effect.adcOpen, Effect.pinSet Pin.Board_DIO21 0,
      Effect.pinSet Pin.Board_DIO22 0] }

/-- A cycle in which the three driver calls succeed and every sample of the
batch converts to `v` microvolts. -/
def constantCycle (v : Nat) : AdcCycle :=
  { convertOk := true
    adjustOk := true
    toMicroVoltsOk := true
    microVolts := List.replicate ADC_BUFFER_SIZE v }

/-! ## Status codes and GAP role states

Values of the TI BLE stack headers (`comdef.h`, `bcomdef.h`, `gatt.h`,
`peripheral.h`) that `multimeter.c` includes; the theorems use only that the
values are distinct. -/

def SUCCESS : Nat := 0x00
def FAILURE : Nat := 0x01
def MSG_BUFFER_NOT_AVAIL : Nat := 0x04
def bleNotConnected : Nat := 0x14
def blePending : Nat := 0x16

def GATT_MSG_EVENT : Nat := 0xB0

def GAPROLE_INIT : Nat := 0
def GAPROLE_STARTED : Nat := 1
def GAPROLE_ADVERTISING : Nat := 2
def GAPROLE_ADVERTISING_NONCONN : Nat := 3
def GAPROLE_WAITING : Nat := 4
def GAPROLE_WAITING_AFTER_TIMEOUT : Nat := 5
def GAPROLE_CONNECTED : Nat := 6
def GAPROLE_CONNECTED_ADV : Nat := 7
def GAPROLE_ERROR : Nat := 8

/-! ## The response-retry buffer -/

/-- `Multimeter_freeAttRsp(status)`: when a response is pending, its payload is
freed unless `status` is `SUCCESS`, the message is freed, and `pAttRsp` and
`rspTxRetry` are reset. -/
def Multimeter_freeAttRsp (status : Nat) (s : AppState) : AppState :=
  match s.pAttRsp with
  | some rsp =>
    let s := if status = SUCCESS then s else s.emit (Effect.gattBmFree rsp)
    let s := s.emit (Effect.icallFreeMsg rsp)
    { s with pAttRsp := none, rspTxRetry := 0 }
  | none => s

/-- `Multimeter_sendAttRsp()`; `sendStatus` is the value returned by
`GATT_SendRsp`.  `rspTxRetry++` is the increment of a `uint8_t`. -/
def Multimeter_sendAttRsp (sendStatus : Nat) (s : AppState) : AppState :=
  match s.pAttRsp with
  | some rsp =>
    let s := { s with rspTxRetry := (s.rspTxRetry + 1) % 256 }
    let s := s.emit (Effect.gattSendRsp rsp)
    if sendStatus ≠ blePending ∧ sendStatus ≠ MSG_BUFFER_NOT_AVAIL then
      let s := s.emit (Effect.connEventNotice rsp.connHandle 0)
      Multimeter_freeAttRsp sendStatus s
    else s
  | none => s

/-- `Multimeter_processGATTMsg(pMsg)`; `noticeStatus` is the value returned by
`HCI_EXT_ConnEventNoticeCmd` should the function call it.  The first
component is the return value (`true` is `TRUE`: safe to deallocate). -/
def Multimeter_processGATTMsg (pMsg : GattMsg) (noticeStatus : Nat) (s : AppState) :
    Bool × AppState :=
  if pMsg.status = blePending then
    let s := s.emit (Effect.connEventNotice pMsg.connHandle SBP_CONN_EVT_END_EVT)
    if noticeStatus = SUCCESS then
      let s := Multimeter_freeAttRsp FAILURE s
      (false, { s with pAttRsp := some pMsg })
    else (true, s.emit (Effect.gattBmFree pMsg))
  else (true, s.emit (Effect.gattBmFree pMsg))

/-- `Multimeter_processStackMsg(pMsg)`; `event` is `pMsg->event` and `pMsg` the
message viewed as a `gattMsgEvent_t`. -/
def Multimeter_processStackMsg (event : Nat) (pMsg : GattMsg) (noticeStatus : Nat)
    (s : AppState) : Bool × AppState :=
  if event = GATT_MSG_EVENT then Multimeter_processGATTMsg pMsg noticeStatus s
  else (true, s)

/-- The retry buffer is in one of its two states: Empty (`pAttRsp = NULL`,
counter 0) or Pending (with any 8-bit counter). -/
def RetryBufferOk (s : AppState) : Prop :=
  (s.pAttRsp = none → s.rspTxRetry = 0) ∧ s.rspTxRetry < 256

/-- Calls that release a message or its payload. -/
def Effect.isRelease : Effect → Bool
  | Effect.gattBmFree _ => true
  | Effect.icallFreeMsg _ => true
  | _ => false

/-- The retry attempts made on `k` window-end notices whose transmit results
are `statuses`, oldest first. -/
def sendAttRspRepeated (statuses : List Nat) (s : AppState) : AppState :=
  statuses.foldl (fun acc st => Multimeter_sendAttRsp st acc) s

/-! ## GAP role state changes -/

/-- `Multimeter_processStateChangeEvt(newState)`, compiled without
`PLUS_BROADCASTER`.  The cases other than `GAPROLE_WAITING` and
`GAPROLE_WAITING_AFTER_TIMEOUT` only print to the display and, for
`GAPROLE_STARTED`, set the system identifier of the device information
service; they leave the modelled state unchanged. -/
def Multimeter_processStateChangeEvt (newState : Nat) (s : AppState) : AppState :=
  if newState = GAPROLE_WAITING then
    let s :=
      if s.multimeterIsOn then
        let s := Util_stopClock s
        let s := { s with multimeterIsOn := false }
        let s := ADCBuf_convertCancel s
        let s := ADCBuf_close s
        let s := MultimeterProfile_SetParameter_CHAR4 [0, 0, 0, 0] s
        let s := MultimeterProfile_SetParameter_CHAR1 MultimeterMode_Off s
        s
      else s
    Multimeter_freeAttRsp bleNotConnected s
  else if newState = GAPROLE_WAITING_AFTER_TIMEOUT then
    Multimeter_freeAttRsp bleNotConnected s
  else s

/-! ## The task loop -/

/-- `Multimeter_processAppMsg(pMsg)`. -/
def Multimeter_processAppMsg (pMsg : SbpEvt) (openOk : Bool) (s : AppState) : Option AppState :=
  if pMsg.event = SBP_STATE_CHANGE_EVT then
    some (Multimeter_processStateChangeEvt pMsg.state s)
  else if pMsg.event = SBP_CHAR_CHANGE_EVT then
    Multimeter_processCharValueChangeEvt pMsg.state openOk s
  else some s

/-- `Multimeter_enqueueMsg(event, state)`, the allocation succeeding: the
message joins the tail of `appMsgQueue` (the semaphore post is not modelled). -/
def Multimeter_enqueueMsg (event : Nat) (state : Nat) (s : AppState) : AppState :=
  { s with appMsgQueue := s.appMsgQueue ++ [{ event := event, state := state }] }

/-- `Multimeter_stateChangeCB(newState)`. -/
def Multimeter_stateChangeCB (newState : Nat) (s : AppState) : AppState :=
  Multimeter_enqueueMsg SBP_STATE_CHANGE_EVT newState s

/-- `Multimeter_charValueChangeCB(paramID)`. -/
def Multimeter_charValueChangeCB (paramID : Nat) (s : AppState) : AppState :=
  Multimeter_enqueueMsg SBP_CHAR_CHANGE_EVT paramID s

/-- `Multimeter_clockHandler(arg)`: `events |= arg`. -/
def Multimeter_clockHandler (arg : Nat) (s : AppState) : AppState :=
  { s with events := s.events ||| arg }

/-- Expiry of the one-shot `periodicClock` (constructed with argument
`SBP_PERIODIC_EVT`): possible only while the clock runs; the clock stops and
its handler is called. -/
def clockExpiry (s : AppState) : Option AppState :=
  if s.clockActive then
    some (Multimeter_clockHandler SBP_PERIODIC_EVT { s with clockActive := false })
  else none

/-- The peer writes `mode` to characteristic 1: the profile stores the value
and calls `Multimeter_charValueChangeCB(MULTIMETERPROFILE_CHAR1)`. -/
def peerWritesMode (mode : Nat) (s : AppState) : AppState :=
  Multimeter_charValueChangeCB MULTIMETERPROFILE_CHAR1 { s with char1 := mode }

/-- The message returned by `ICall_fetchServiceMsg`, with the fields the loop
reads under each of the types it casts the message to. -/
structure ServiceMsg where
  /-- `(src == ICALL_SERVICE_CLASS_BLE) && (dest == selfEntity)` -/
  fromBleToSelf : Bool
  /-- `((ICall_Stack_Event *)pMsg)->signature` -/
  signature : Nat
  /-- `((ICall_Stack_Event *)pMsg)->event_flag` -/
  event_flag : Nat
  /-- `((ICall_Hdr *)pMsg)->event` -/
  event : Nat
  /-- The message viewed as a `gattMsgEvent_t`. -/
  gatt : GattMsg
  deriving DecidableEq, Repr

/-- What the environment supplies to one iteration of the task loop. -/
structure LoopInput where
  /-- `ICall_wait(...) == ICALL_ERRNO_SUCCESS` -/
  waitOk : Bool
  /-- The message fetched by `ICall_fetchServiceMsg`, `none` when it fails. -/
  serviceMsg : Option ServiceMsg
  /-- Result of `GATT_SendRsp`, should it be called. -/
  sendStatus : Nat
  /-- Result of `HCI_EXT_ConnEventNoticeCmd`, should it be called. -/
  noticeStatus : Nat
  /-- Whether `ADCBuf_open` returns a handle, should it be called. -/
  openOk : Bool
  /-- The ADC driver's behaviour, should a cycle run. -/
  adc : AdcCycle
  deriving DecidableEq, Repr

/-- First part of an iteration whose wait succeeded: the block
`if (ICall_fetchServiceMsg(...) == ICALL_ERRNO_SUCCESS) { ... }`. -/
def handleServiceMsg (inp : LoopInput) (s : AppState) : AppState :=
  match inp.serviceMsg with
  | some m =>
    let r : Bool × AppState :=
      if m.fromBleToSelf then
        if m.signature = 0xffff then
          (true,
            if m.event_flag &&& SBP_CONN_EVT_END_EVT ≠ 0 then
              Multimeter_sendAttRsp inp.sendStatus s
            else s)
        else Multimeter_processStackMsg m.event m.gatt inp.noticeStatus s
      else (true, s)
    if r.1 then r.2.emit (Effect.icallFreeMsg m.gatt) else r.2
  | none => s

/-- The loop `while (!Queue_empty(appMsgQueue)) { ... }` over the queue
content `q`: the head is dequeued and processed, then the rest.  (Processing a
message never enqueues one, so the content seen by the loop is the content at
its start; `ICall_free` of the event is not recorded.) -/
def drainMsgs (openOk : Bool) : List SbpEvt → AppState → Option AppState
  | [], s => some s
  | m :: rest, s =>
    (Multimeter_processAppMsg m openOk { s with appMsgQueue := rest }).bind
      (drainMsgs openOk rest)

/-- Last part of an iteration: `if (events & SBP_PERIODIC_EVT) { ... }`; the
mask `~SBP_PERIODIC_EVT` is taken on the 16 bits of `events`. -/
def servicePeriodic (adc : AdcCycle) (s : AppState) : Option AppState :=
  if s.events &&& SBP_PERIODIC_EVT ≠ 0 then
    let s := { s with events := s.events &&& (0xFFFF - SBP_PERIODIC_EVT) }
    let s := Util_startClock s
    Multimeter_performPeriodicTask adc s
  else some s

/-- One iteration of the `for (;;)` loop of `Multimeter_taskFxn`. -/
def Multimeter_taskFxn_step (inp : LoopInput) (s : AppState) : Option AppState :=
  (if inp.waitOk then
    let s := handleServiceMsg inp s
    drainMsgs inp.openOk s.appMsgQueue s
  else some s).bind (servicePeriodic inp.adc)

/-! ## Operations of the controller -/

/-- The operations under which the controller state evolves: a mode-change
event with any mode value, a GAP role state-change event, a periodic cycle. -/
inductive ControllerOp
  | modeChange (mode : Nat)
  | stateChange (newState : Nat)
  | periodicCycle (adc : AdcCycle)

/-- Effect of an operation, the front-end open succeeding. -/
def ControllerOp.apply : ControllerOp → AppState → Option AppState
  | ControllerOp.modeChange mode, s => modeChanged mode true s
  | ControllerOp.stateChange newState, s => some (Multimeter_processStateChangeEvt newState s)
  | ControllerOp.periodicCycle adc, s => Multimeter_performPeriodicTask adc s

/-- States reachable from `initState` by controller operations. -/
inductive Reachable : AppState → Prop
  | init : Reachable initState
  | step (op : ControllerOp) (s s' : AppState) :
      Reachable s → op.apply s = some s' → Reachable s'

/-- A response message used in examples. -/
def sampleRsp (ident : Nat) : GattMsg :=
  { ident := ident, status := blePending, connHandle := 0, method := 0x0B }

/-- An iteration input with a successful wait, no service message, successful
driver calls and a cycle that reads `v` microvolts on every sample. -/
def plainInput (v : Nat) : LoopInput :=
  { waitOk := true
    serviceMsg := none
    sendStatus := SUCCESS
    noticeStatus := SUCCESS
    openOk := true
    adc := constantCycle v }

/-- Acquisition running in Range-A with a response pending since 3 retries. -/
def runningWithPending : AppState :=
  { runningRangeA with
    pAttRsp := some (sampleRsp 1)
    rspTxRetry := 3 }

/-- `RetryBufferOk` is decidable. -/
instance (s : AppState) : Decidable (RetryBufferOk s) := by
  unfold RetryBufferOk
  exact inferInstance

/-- Acquisition running in Range-A with a response just stored (counter 0). -/
def freshPending : AppState :=
  { runningRangeA with pAttRsp := some (sampleRsp 1) }

/-- The messages of `q` processed in order, head first, the bookkeeping of the
queue itself left aside (used to name the state in which a given queued
message is processed). -/
def processMsgs (openOk : Bool) : List SbpEvt → AppState → Option AppState
  | [], s => some s
  | m :: rest, s => (Multimeter_processAppMsg m openOk s).bind (processMsgs openOk rest)

/-- A cycle whose first driver call fails. -/
def failedCycle : AdcCycle :=
  { convertOk := false
    adjustOk := false
    toMicroVoltsOk := false
    microVolts := [] }

/-- An iteration input with a successful wait, no service message, and a cycle
whose conversion fails. -/
def failedCycleInput : LoopInput :=
  { plainInput 0 with adc := failedCycle }

/-- Run from the initial state: the peer selects Range-A and the task loop
processes it; then the periodic clock expires and, before the task runs
again, the peer selects Off. -/
def raceRun : Option AppState :=
  (Multimeter_taskFxn_step (plainInput 0) (peerWritesMode MultimeterMode_3V initState)).bind
    fun s => (clockExpiry s).map (peerWritesMode MultimeterMode_Off)

/-- Running in Range-A when the periodic clock has expired and the peer has
written Range-B: a mode-change message and the periodic bit are both pending
at wake-up. -/
def modeChangePending : AppState :=
  peerWritesMode MultimeterMode_10V
    (Multimeter_clockHandler SBP_PERIODIC_EVT { runningRangeA with clockActive := false })

/-- Conversion of a double to `uint32_t` taken modulo `2 ^ 32`: the reading of
an out-of-range conversion as wrap-around (what `d2u` leaves undefined). -/
def d2uWrap (q : ℚ) : ℕ := (truncToZero q % 2 ^ 32).toNat

/-- Range-C scaling with the final conversion taken modulo `2 ^ 32`. -/
def scale500mAWrap (m : Nat) : Option Nat :=
  (roundDouble (685 / 100)).bind fun c =>
  (fdiv (m : ℚ) c).bind fun q =>
  (fsub q 1200).bind fun d =>
  some (d2uWrap d)

/-- The double `adcValue0MicroVolt/6.85 - 1200` before its conversion to
`uint32_t`. -/
def scale500mADouble (m : Nat) : Option ℚ :=
  (roundDouble (685 / 100)).bind fun c =>
  (fdiv (m : ℚ) c).bind fun q =>
  fsub q 1200

/-- A state in Range-C with acquisition running. -/
def runningRangeC : AppState :=
  { runningRangeA with
    multimeterMode := MultimeterMode_500mA
    char1 := MultimeterMode_500mA
    dio21 := 1 }

/-! # Theorems -/

/-! ## The sample filter sorts -/

theorem getD_mid (p : List Nat) (a : Nat) (r : List Nat) :
    (p ++ a :: r).getD p.length 0 = a := by
  rw [List.getD_eq_getElem?_getD, List.getElem?_append_right (Nat.le_refl _)]
  simp

theorem set_mid (p : List Nat) (a c : Nat) (r : List Nat) :
    (p ++ a :: r).set p.length c = p ++ c :: r := by
  simp

theorem swapStep_decomp (p d t : List Nat) (a b : Nat) :
    swapStep p.length (p.length + 1 + d.length) (p ++ a :: (d ++ b :: t))
      = if b < a then p ++ b :: (d ++ a :: t) else p ++ a :: (d ++ b :: t) := by
  have e1 : p ++ a :: (d ++ b :: t) = (p ++ a :: d) ++ b :: t := by simp
  have hl : (p ++ a :: d).length = p.length + 1 + d.length := by simp; omega
  have hj : (p ++ a :: (d ++ b :: t)).getD (p.length + 1 + d.length) 0 = b := by
    rw [e1, ← hl, getD_mid]
  have hi : (p ++ a :: (d ++ b :: t)).getD p.length 0 = a := getD_mid _ _ _
  unfold swapStep
  rw [hj, hi]
  split
  · rw [set_mid]
    have e2 : p ++ b :: (d ++ b :: t) = (p ++ b :: d) ++ b :: t := by simp
    have hl2 : (p ++ b :: d).length = p.length + 1 + d.length := by simp; omega
    rw [e2, ← hl2, set_mid]; simp
  · rfl

theorem foldl_inner (p : List Nat) (t d : List Nat) (a : Nat) :
    (List.range' (p.length + 1 + d.length) t.length).foldl
        (fun acc j => swapStep p.length j acc) (p ++ a :: (d ++ t))
      = p ++ (sel a t).1 :: (d ++ (sel a t).2) := by
  induction t generalizing a d with
  | nil => simp [sel]
  | cons b t ih =>
    simp only [List.length_cons, List.range'_succ, List.foldl_cons]
    rw [swapStep_decomp]
    by_cases h : b < a
    · simp only [h, if_true, sel]
      have := ih (d ++ [a]) b
      simp only [List.length_append, List.length_singleton, List.append_assoc,
        List.singleton_append] at this
      exact this
    · simp only [h, if_false, sel]
      have := ih (d ++ [b]) a
      simp only [List.length_append, List.length_singleton, List.append_assoc,
        List.singleton_append] at this
      exact this

theorem innerLoop_decomp (p r : List Nat) (a : Nat) :
    innerLoop (p.length + 1 + r.length) p.length (p ++ a :: r)
      = p ++ (sel a r).1 :: (sel a r).2 := by
  unfold innerLoop
  have h : p.length + 1 + r.length - (p.length + 1) = r.length := by omega
  rw [h]
  have := foldl_inner p r [] a
  simpa using this

theorem sel_perm (a : Nat) (t : List Nat) : ((sel a t).1 :: (sel a t).2).Perm (a :: t) := by
  induction t generalizing a with
  | nil => simp [sel]
  | cons b t ih =>
    unfold sel
    split
    · exact (List.Perm.swap _ _ _).trans ((ih b).cons a)
    · exact (List.Perm.swap _ _ _).trans (((ih a).cons b).trans (List.Perm.swap _ _ _))

theorem sel_fst_le (a : Nat) (t : List Nat) : (sel a t).1 ≤ a := by
  induction t generalizing a with
  | nil => simp [sel]
  | cons b t ih =>
    unfold sel
    split
    · exact (ih b).trans (by omega)
    · exact ih a

theorem sel_min (a : Nat) (t : List Nat) : ∀ y ∈ (sel a t).2, (sel a t).1 ≤ y := by
  induction t generalizing a with
  | nil => simp [sel]
  | cons b t ih =>
    unfold sel
    split
    · intro y hy
      simp only [List.mem_cons] at hy
      rcases hy with rfl | hy
      · exact (sel_fst_le b t).trans (by omega)
      · exact ih b y hy
    · intro y hy
      simp only [List.mem_cons] at hy
      rcases hy with rfl | hy
      · exact (sel_fst_le a t).trans (by omega)
      · exact ih a y hy

theorem sel_length (a : Nat) (t : List Nat) : (sel a t).2.length = t.length := by
  have := (sel_perm a t).length_eq
  simpa using this


theorem sorted_snoc (p : List Nat) (m : Nat) (hp : p.Sorted (· ≤ ·)) (h : ∀ a ∈ p, a ≤ m) :
    (p ++ [m]).Sorted (· ≤ ·) := by
  unfold List.Sorted at *
  rw [List.pairwise_append]
  refine ⟨hp, List.pairwise_singleton _ _, ?_⟩
  intro a ha b hb
  simp only [List.mem_singleton] at hb
  subst hb
  exact h a ha

theorem outer_inv (k : Nat) : ∀ (p q : List Nat), q.length = k →
    (∀ a ∈ p, ∀ b ∈ q, a ≤ b) → p.Sorted (· ≤ ·) →
    ((List.range' p.length (q.length - 1)).foldl
        (fun acc i => innerLoop (p.length + q.length) i acc) (p ++ q)).Sorted (· ≤ ·) ∧
    ((List.range' p.length (q.length - 1)).foldl
        (fun acc i => innerLoop (p.length + q.length) i acc) (p ++ q)).Perm (p ++ q) := by
  induction k with
  | zero =>
    intro p q hq _ hp
    have : q = [] := List.length_eq_zero.mp hq
    subst this
    simpa using hp
  | succ k ih =>
    intro p q hq hpq hp
    match q, hq with
    | [a], _ =>
      simp only [List.length_singleton, Nat.sub_self, List.range'_zero, List.foldl_nil]
      exact ⟨sorted_snoc p a hp (fun x hx => hpq x hx a (by simp)), List.Perm.refl _⟩
    | a :: b :: t, hq =>
      have hlen : (a :: b :: t).length - 1 = t.length + 1 := by simp
      have hn : p.length + (a :: b :: t).length = p.length + 1 + (b :: t).length := by
        simp only [List.length_cons]; omega
      rw [hlen, List.range'_succ, List.foldl_cons, hn, innerLoop_decomp]
      have hperm := sel_perm a (b :: t)
      have hmin := sel_min a (b :: t)
      have hl := sel_length a (b :: t)
      generalize (sel a (b :: t)).1 = m at *
      generalize (sel a (b :: t)).2 = r at *
      have hm_mem : m ∈ a :: b :: t := hperm.subset (List.mem_cons_self _ _)
      have hr_sub : ∀ y ∈ r, y ∈ a :: b :: t := fun y hy =>
        hperm.subset (List.mem_cons_of_mem _ hy)
      have hk : r.length = k := by
        simp only [List.length_cons] at hq hl; omega
      have h1 : ∀ x ∈ p ++ [m], ∀ y ∈ r, x ≤ y := by
        intro x hx y hy
        simp only [List.mem_append, List.mem_singleton] at hx
        rcases hx with hx | rfl
        · exact hpq x hx y (hr_sub y hy)
        · exact hmin y hy
      have h2 : (p ++ [m]).Sorted (· ≤ ·) :=
        sorted_snoc p m hp (fun x hx => hpq x hx m hm_mem)
      have key := ih (p ++ [m]) r hk h1 h2
      have e1 : (p ++ [m]).length = p.length + 1 := by simp
      have e2 : r.length - 1 = t.length := by
        simp only [List.length_cons] at hl; omega
      have e3 : p.length + 1 + r.length = p.length + 1 + (b :: t).length := by rw [hl]
      have e4 : p ++ [m] ++ r = p ++ m :: r := by simp
      rw [e1, e2, e3, e4] at key
      refine ⟨key.1, key.2.trans ?_⟩
      exact List.Perm.append_left p hperm

theorem sortLoops_spec (x : List Nat) :
    (sortLoops x.length x).Sorted (· ≤ ·) ∧ (sortLoops x.length x).Perm x := by
  have := outer_inv x.length [] x rfl (by simp) (by simp)
  simpa [sortLoops] using this

theorem sortLoops_eq_of_sorted_perm (x s : List Nat) (hs : s.Sorted (· ≤ ·)) (hp : s.Perm x) :
    sortLoops x.length x = s :=
  List.eq_of_perm_of_sorted ((sortLoops_spec x).2.trans hp.symm) (sortLoops_spec x).1 hs


theorem sortLoops_length (x : List Nat) : (sortLoops x.length x).length = x.length :=
  (sortLoops_spec x).2.length_eq

theorem getMedian_mem (x : List Nat) (hn : 0 < x.length) : getMedian x.length x ∈ x := by
  have hlt : x.length / 2 < (sortLoops x.length x).length := by
    rw [sortLoops_length]; omega
  unfold getMedian
  rw [List.getD_eq_getElem _ _ hlt]
  exact (sortLoops_spec x).2.subset (List.getElem_mem _)

theorem getMedian_eq_insertionSort (x : List Nat) :
    getMedian x.length x = (x.insertionSort (· ≤ ·)).getD (x.length / 2) 0 := by
  unfold getMedian
  rw [sortLoops_eq_of_sorted_perm x _ (List.sorted_insertionSort _ x)
    (List.perm_insertionSort _ x)]

/-- C1. For every `n > 0` and every array `x` of `n` values, `getMedian(n, x)`
returns the element at zero-based index `n/2` (a valid index) of the ascending
sort of `x`; when `x` is already sorted ascending it returns `x[n/2]`. -/
theorem getMedian_eq_sorted_middle (n : Nat) (x : List Nat) (hn : 0 < n) (hlen : x.length = n) :
    n / 2 < (x.insertionSort (· ≤ ·)).length ∧
    getMedian n x = (x.insertionSort (· ≤ ·)).getD (n / 2) 0 ∧
    (x.Sorted (· ≤ ·) → getMedian n x = x.getD (n / 2) 0) := by
  subst hlen
  refine ⟨?_, ?_, ?_⟩
  · rw [List.length_insertionSort]; omega
  · exact getMedian_eq_insertionSort x
  · intro hs
    unfold getMedian
    rw [sortLoops_eq_of_sorted_perm x x hs (List.Perm.refl x)]

theorem getMedian_eq_sorted_middle_witness :
    0 < 5 ∧ [50, 30, 40, 10, 20].length = 5 ∧
    (5 / 2 < ([50, 30, 40, 10, 20].insertionSort (· ≤ ·)).length ∧
      getMedian 5 [50, 30, 40, 10, 20] = ([50, 30, 40, 10, 20].insertionSort (· ≤ ·)).getD (5 / 2) 0 ∧
      (([50, 30, 40, 10, 20] : List Nat).Sorted (· ≤ ·) →
        getMedian 5 [50, 30, 40, 10, 20] = ([50, 30, 40, 10, 20] : List Nat).getD (5 / 2) 0)) :=
  ⟨by decide, rfl, getMedian_eq_sorted_middle 5 [50, 30, 40, 10, 20] (by decide) rfl⟩

/-- C2. For every non-empty array `x` of length `n` and every permutation `y`
of `x`, `getMedian(n, x) = getMedian(n, y)`. -/
theorem getMedian_perm_invariant (n : Nat) (x y : List Nat) (hn : 0 < n)
    (hlen : x.length = n) (hperm : y.Perm x) : getMedian n x = getMedian n y := by
  have hy : y.length = n := hperm.length_eq.trans hlen
  have h1 := getMedian_eq_insertionSort x
  have h2 := getMedian_eq_insertionSort y
  rw [hlen] at h1
  rw [hy] at h2
  have hs : y.insertionSort (· ≤ ·) = x.insertionSort (· ≤ ·) :=
    List.eq_of_perm_of_sorted
      (((List.perm_insertionSort _ y).trans hperm).trans (List.perm_insertionSort _ x).symm)
      (List.sorted_insertionSort _ y) (List.sorted_insertionSort _ x)
  rw [h1, h2, hs]

theorem getMedian_perm_invariant_witness :
    0 < 3 ∧ [7, 9, 8].length = 3 ∧ ([9, 8, 7] : List Nat).Perm [7, 9, 8] ∧
    getMedian 3 [7, 9, 8] = getMedian 3 [9, 8, 7] :=
  ⟨by decide, rfl, by decide,
    getMedian_perm_invariant 3 [7, 9, 8] [9, 8, 7] (by decide) rfl (by decide)⟩

/-- C3, as stated, fails: on the two-element array `[1, 2]` the sorted position
`N/2 - 1 = 0` holds `1`, but `getMedian` returns `2`. -/
theorem getMedian_even_not_lower_middle :
    getMedian 2 [1, 2] = 2 ∧ ([1, 2].insertionSort (· ≤ ·)).getD (2 / 2 - 1) 0 = 1 ∧
    getMedian 2 [1, 2] ≠ ([1, 2].insertionSort (· ≤ ·)).getD (2 / 2 - 1) 0 := by
  decide

/-- C3, amended. For every input of even length `N ≥ 2`, `getMedian` returns
the upper-middle element of the ascending-sorted input (zero-based sorted
position `N/2`), which is at least the element at position `N/2 - 1`, and it is
an element of the input, not an average. -/
theorem getMedian_even_upper_middle (n : Nat) (x : List Nat) (hn : 2 ≤ n) (heven : n % 2 = 0)
    (hlen : x.length = n) :
    getMedian n x = (x.insertionSort (· ≤ ·)).getD (n / 2) 0 ∧
    (x.insertionSort (· ≤ ·)).getD (n / 2 - 1) 0 ≤ getMedian n x ∧
    getMedian n x ∈ x := by
  have h1 := getMedian_eq_insertionSort x
  rw [hlen] at h1
  refine ⟨h1, ?_, ?_⟩
  · rw [h1]
    have hl : (x.insertionSort (· ≤ ·)).length = n := by
      rw [List.length_insertionSort, hlen]
    have ha : n / 2 - 1 < (x.insertionSort (· ≤ ·)).length := by omega
    have hb : n / 2 < (x.insertionSort (· ≤ ·)).length := by omega
    rw [List.getD_eq_getElem _ _ ha, List.getD_eq_getElem _ _ hb]
    exact (List.sorted_insertionSort (· ≤ ·) x).rel_get_of_le
      (a := ⟨n / 2 - 1, ha⟩) (b := ⟨n / 2, hb⟩) (by simp)
  · subst hlen
    exact getMedian_mem x (by omega)

theorem getMedian_even_upper_middle_witness :
    2 ≤ 4 ∧ 4 % 2 = 0 ∧ [40, 10, 30, 20].length = 4 ∧
    (getMedian 4 [40, 10, 30, 20] = ([40, 10, 30, 20].insertionSort (· ≤ ·)).getD (4 / 2) 0 ∧
      ([40, 10, 30, 20].insertionSort (· ≤ ·)).getD (4 / 2 - 1) 0 ≤ getMedian 4 [40, 10, 30, 20] ∧
      getMedian 4 [40, 10, 30, 20] ∈ [40, 10, 30, 20]) :=
  ⟨by decide, by decide, rfl,
    getMedian_even_upper_middle 4 [40, 10, 30, 20] (by decide) (by decide) rfl⟩

/-! ## Double-precision rounding -/

theorem floor_le_roundHalfEven (y : ℚ) : ⌊y⌋ ≤ roundHalfEven y := by
  unfold roundHalfEven
  split_ifs <;> omega

theorem roundHalfEven_le_floor_add_one (y : ℚ) : roundHalfEven y ≤ ⌊y⌋ + 1 := by
  unfold roundHalfEven
  split_ifs <;> omega

theorem roundHalfEven_intCast (z : ℤ) : roundHalfEven (z : ℚ) = z := by
  unfold roundHalfEven
  simp

theorem le_roundHalfEven (A : ℤ) (y : ℚ) (h : (A : ℚ) ≤ y) : A ≤ roundHalfEven y :=
  (Int.le_floor.mpr h).trans (floor_le_roundHalfEven y)

theorem roundHalfEven_le (B : ℤ) (y : ℚ) (h : y ≤ (B : ℚ)) : roundHalfEven y ≤ B := by
  rcases h.lt_or_eq with h | h
  · have : ⌊y⌋ < B := Int.floor_lt.mpr h
    have := roundHalfEven_le_floor_add_one y
    omega
  · rw [h, roundHalfEven_intCast]

theorem roundHalfEven_mono {a b : ℚ} (h : a ≤ b) : roundHalfEven a ≤ roundHalfEven b := by
  have hf : ⌊a⌋ ≤ ⌊b⌋ := Int.floor_le_floor h
  rcases hf.lt_or_eq with hf | hf
  · have h1 := roundHalfEven_le_floor_add_one a
    have h2 := floor_le_roundHalfEven b
    omega
  · unfold roundHalfEven
    rw [← hf]
    split_ifs <;> first | omega | (exfalso; linarith)


theorem ulpExp_eq (q : ℚ) : ulpExp q = binadeExp q - 52 := rfl

theorem two_zpow_pos (e : ℤ) : (0 : ℚ) < 2 ^ e := zpow_pos (by norm_num) e

theorem lt_binade_top {q : ℚ} (hq : 0 < q) : q < 2 ^ (binadeExp q + 1) := by
  have h1 : q < ((2 : ℕ) : ℚ) ^ (Int.log 2 q + 1) := Int.lt_zpow_succ_log_self (by norm_num) q
  have h2 : ((2 : ℕ) : ℚ) ^ (Int.log 2 q + 1) ≤ (2 : ℚ) ^ (binadeExp q + 1) := by
    rw [Nat.cast_ofNat]
    apply zpow_le_zpow_right₀ (by norm_num)
    unfold binadeExp
    rw [abs_of_pos hq]
    have := le_max_left (Int.log 2 q) (-1022)
    omega
  exact lt_of_lt_of_le h1 h2

theorem binade_bot_le {q : ℚ} (hq : 0 < q) (hn : -1022 < binadeExp q) : 2 ^ binadeExp q ≤ q := by
  have h1 : ((2 : ℕ) : ℚ) ^ (Int.log 2 q) ≤ q := Int.zpow_log_le_self (by norm_num) hq
  have h2 : binadeExp q = Int.log 2 q := by
    unfold binadeExp at *
    rw [abs_of_pos hq] at *
    rcases max_cases (Int.log 2 q) (-1022) with ⟨h, _⟩ | ⟨h, _⟩
    · exact h
    · omega
  rw [h2]
  rwa [Nat.cast_ofNat] at h1

theorem binadeExp_mono {x y : ℚ} (hx : 0 < x) (h : x ≤ y) : binadeExp x ≤ binadeExp y := by
  unfold binadeExp
  rw [abs_of_pos hx, abs_of_pos (lt_of_lt_of_le hx h)]
  exact max_le_max (Int.log_mono_right hx h) (le_refl _)

theorem roundUnbounded_zero : roundUnbounded 0 = 0 := by
  simp [roundUnbounded, roundHalfEven]

theorem roundUnbounded_nonneg {q : ℚ} (hq : 0 ≤ q) : 0 ≤ roundUnbounded q := by
  unfold roundUnbounded
  have hu := two_zpow_pos (ulpExp q)
  have : (0 : ℤ) ≤ roundHalfEven (q / 2 ^ ulpExp q) :=
    le_roundHalfEven 0 _ (by simpa using div_nonneg hq hu.le)
  have : (0 : ℚ) ≤ (roundHalfEven (q / 2 ^ ulpExp q) : ℚ) := by exact_mod_cast this
  exact mul_nonneg this hu.le

theorem roundUnbounded_le_top {q : ℚ} (hq : 0 < q) : roundUnbounded q ≤ 2 ^ (binadeExp q + 1) := by
  unfold roundUnbounded
  have hu := two_zpow_pos (ulpExp q)
  have hsplit : (2 : ℚ) ^ (binadeExp q + 1) = ((2 ^ 53 : ℤ) : ℚ) * 2 ^ ulpExp q := by
    rw [ulpExp_eq]
    have : binadeExp q + 1 = 53 + (binadeExp q - 52) := by ring
    rw [this, zpow_add₀ (by norm_num : (2 : ℚ) ≠ 0)]
    norm_num
  have h1 : q / 2 ^ ulpExp q ≤ ((2 ^ 53 : ℤ) : ℚ) := by
    rw [div_le_iff₀ hu, ← hsplit]
    exact (lt_binade_top hq).le
  have h2 : roundHalfEven (q / 2 ^ ulpExp q) ≤ 2 ^ 53 := roundHalfEven_le _ _ h1
  have h3 : (roundHalfEven (q / 2 ^ ulpExp q) : ℚ) ≤ ((2 ^ 53 : ℤ) : ℚ) := by exact_mod_cast h2
  rw [hsplit]
  exact mul_le_mul_of_nonneg_right h3 hu.le

theorem binade_bot_le_roundUnbounded {q : ℚ} (hq : 0 < q) (hn : -1022 < binadeExp q) :
    2 ^ binadeExp q ≤ roundUnbounded q := by
  unfold roundUnbounded
  have hu := two_zpow_pos (ulpExp q)
  have hsplit : (2 : ℚ) ^ (binadeExp q) = ((2 ^ 52 : ℤ) : ℚ) * 2 ^ ulpExp q := by
    rw [ulpExp_eq]
    have : binadeExp q = 52 + (binadeExp q - 52) := by ring
    nth_rewrite 1 [this]
    rw [zpow_add₀ (by norm_num : (2 : ℚ) ≠ 0)]
    norm_num
  have h1 : ((2 ^ 52 : ℤ) : ℚ) ≤ q / 2 ^ ulpExp q := by
    rw [le_div_iff₀ hu, ← hsplit]
    exact binade_bot_le hq hn
  have h2 : 2 ^ 52 ≤ roundHalfEven (q / 2 ^ ulpExp q) := le_roundHalfEven _ _ h1
  have h3 : ((2 ^ 52 : ℤ) : ℚ) ≤ (roundHalfEven (q / 2 ^ ulpExp q) : ℚ) := by exact_mod_cast h2
  rw [hsplit]
  exact mul_le_mul_of_nonneg_right h3 hu.le

theorem roundUnbounded_mono {x y : ℚ} (hx : 0 ≤ x) (h : x ≤ y) :
    roundUnbounded x ≤ roundUnbounded y := by
  rcases hx.lt_or_eq with hx | hx
  · have hy : 0 < y := lt_of_lt_of_le hx h
    rcases (binadeExp_mono hx h).lt_or_eq with hE | hE
    · have hn : -1022 < binadeExp y := by
        have : -1022 ≤ binadeExp x := le_max_right _ _
        omega
      have h1 := roundUnbounded_le_top hx
      have h2 := binade_bot_le_roundUnbounded hy hn
      have h3 : (2 : ℚ) ^ (binadeExp x + 1) ≤ 2 ^ binadeExp y :=
        zpow_le_zpow_right₀ (by norm_num) (by omega)
      linarith
    · have hu : ulpExp x = ulpExp y := by rw [ulpExp_eq, ulpExp_eq, hE]
      unfold roundUnbounded
      rw [hu]
      have hup := two_zpow_pos (ulpExp y)
      have h1 : x / 2 ^ ulpExp y ≤ y / 2 ^ ulpExp y := div_le_div_of_nonneg_right h hup.le
      have h2 := roundHalfEven_mono h1
      have h3 : (roundHalfEven (x / 2 ^ ulpExp y) : ℚ) ≤ (roundHalfEven (y / 2 ^ ulpExp y) : ℚ) := by
        exact_mod_cast h2
      exact mul_le_mul_of_nonneg_right h3 hup.le
  · rw [← hx, roundUnbounded_zero]
    exact roundUnbounded_nonneg (hx ▸ h)

/-- A value `n * 2 ^ k` with a significand of at most 53 bits and an exponent in
the binary64 range is rounded to itself. -/
theorem roundUnbounded_of_representable (n : ℕ) (k : ℤ) (hn : n < 2 ^ 53) (hk : -1074 ≤ k) :
    roundUnbounded ((n : ℚ) * 2 ^ k) = (n : ℚ) * 2 ^ k := by
  rcases Nat.eq_zero_or_pos n with h0 | hpos
  · subst h0
    simp [roundUnbounded_zero]
  have hq : (0 : ℚ) < (n : ℚ) * 2 ^ k := mul_pos (by exact_mod_cast hpos) (two_zpow_pos k)
  have hlog : Int.log 2 ((n : ℚ) * 2 ^ k) < k + 53 := by
    rw [← Int.lt_zpow_iff_log_lt (by norm_num) hq, Nat.cast_ofNat]
    have : (2 : ℚ) ^ (k + 53) = 2 ^ (53 : ℕ) * 2 ^ k := by
      rw [add_comm, zpow_add₀ (by norm_num : (2 : ℚ) ≠ 0)]
      norm_num
    rw [this]
    apply mul_lt_mul_of_pos_right _ (two_zpow_pos k)
    exact_mod_cast hn
  have hu : ulpExp ((n : ℚ) * 2 ^ k) ≤ k := by
    unfold ulpExp binadeExp
    rw [abs_of_pos hq]
    rcases max_cases (Int.log 2 ((n : ℚ) * 2 ^ k)) (-1022) with ⟨h, _⟩ | ⟨h, _⟩ <;> omega
  obtain ⟨d, hd⟩ : ∃ d : ℕ, k = ulpExp ((n : ℚ) * 2 ^ k) + d :=
    ⟨(k - ulpExp ((n : ℚ) * 2 ^ k)).toNat, by omega⟩
  unfold roundUnbounded
  have hu0 := two_zpow_pos (ulpExp ((n : ℚ) * 2 ^ k))
  have hdiv : (n : ℚ) * 2 ^ k / 2 ^ ulpExp ((n : ℚ) * 2 ^ k) = ((n * 2 ^ d : ℤ) : ℚ) := by
    rw [div_eq_iff hu0.ne']
    nth_rewrite 1 [hd]
    rw [zpow_add₀ (by norm_num : (2 : ℚ) ≠ 0), zpow_natCast]
    push_cast
    ring
  rw [hdiv, roundHalfEven_intCast, ← hdiv]
  field_simp


theorem roundHalfEven_eq_of_near (y : ℚ) (z : ℤ) (h : |y - z| < 1 / 2) : roundHalfEven y = z := by
  rw [abs_lt] at h
  obtain ⟨h1, h2⟩ := h
  by_cases hy : (z : ℚ) ≤ y
  · have hf : ⌊y⌋ = z := by
      rw [Int.floor_eq_iff]
      exact ⟨hy, by linarith⟩
    unfold roundHalfEven
    rw [hf, if_pos (by linarith)]
  · have hf : ⌊y⌋ = z - 1 := by
      rw [Int.floor_eq_iff]
      push_cast
      exact ⟨by linarith, by linarith⟩
    unfold roundHalfEven
    rw [hf]
    push_cast
    rw [if_neg (by linarith), if_pos (by linarith)]
    ring

theorem binadeExp_eq {q : ℚ} {e : ℤ} (hq : 0 < q) (h1 : 2 ^ e ≤ q) (h2 : q < 2 ^ (e + 1))
    (he : -1022 ≤ e) : binadeExp q = e := by
  have hl : Int.log 2 q = e := by
    apply le_antisymm
    · have := (Int.lt_zpow_iff_log_lt (R := ℚ) (b := 2) (by norm_num) hq (x := e + 1)).mp
        (by rw [Nat.cast_ofNat]; exact h2)
      omega
    · exact (Int.zpow_le_iff_le_log (R := ℚ) (b := 2) (by norm_num) hq).mp
        (by rw [Nat.cast_ofNat]; exact h1)
  unfold binadeExp
  rw [abs_of_pos hq, hl]
  exact max_eq_left he

/-- Evaluation of `roundDouble` at a positive value whose binade and nearest
significand are known. -/
theorem roundDouble_eq_of_near {q : ℚ} {e z : ℤ} (hq : 0 < q) (h1 : 2 ^ e ≤ q)
    (h2 : q < 2 ^ (e + 1)) (he : -1022 ≤ e) (hz : |q / 2 ^ (e - 52) - z| < 1 / 2)
    (hb : |(z : ℚ) * 2 ^ (e - 52)| < 2 ^ (1024 : ℕ)) :
    roundDouble q = some ((z : ℚ) * 2 ^ (e - 52)) := by
  have hu : ulpExp q = e - 52 := by rw [ulpExp_eq, binadeExp_eq hq h1 h2 he]
  have hr : roundUnbounded q = (z : ℚ) * 2 ^ (e - 52) := by
    unfold roundUnbounded
    rw [hu, roundHalfEven_eq_of_near _ _ hz]
  unfold roundDouble
  rw [hr, if_pos hb]

/-- Rounding stays between two representable values that enclose the operand. -/
theorem roundDouble_sandwich {x : ℚ} (a b : ℕ) (k l : ℤ) (ha : a < 2 ^ 53) (hb : b < 2 ^ 53)
    (hk : -1074 ≤ k) (hl : -1074 ≤ l) (hl2 : l ≤ 970)
    (hlo : (a : ℚ) * 2 ^ k ≤ x) (hhi : x ≤ (b : ℚ) * 2 ^ l) :
    ∃ r, roundDouble x = some r ∧ (a : ℚ) * 2 ^ k ≤ r ∧ r ≤ (b : ℚ) * 2 ^ l := by
  have h0 : (0 : ℚ) ≤ (a : ℚ) * 2 ^ k := mul_nonneg (Nat.cast_nonneg a) (two_zpow_pos k).le
  have hx : 0 ≤ x := h0.trans hlo
  have h1 : (a : ℚ) * 2 ^ k ≤ roundUnbounded x := by
    rw [← roundUnbounded_of_representable a k ha hk]
    exact roundUnbounded_mono h0 hlo
  have h2 : roundUnbounded x ≤ (b : ℚ) * 2 ^ l := by
    rw [← roundUnbounded_of_representable b l hb hl]
    exact roundUnbounded_mono hx hhi
  have h3 : (b : ℚ) * 2 ^ l < 2 ^ (1024 : ℕ) := by
    have e1 : (b : ℚ) < 2 ^ (53 : ℕ) := by exact_mod_cast hb
    have e2 : (2 : ℚ) ^ l ≤ 2 ^ (970 : ℤ) := zpow_le_zpow_right₀ (by norm_num) hl2
    have e3 : (2 : ℚ) ^ (1024 : ℕ) = 2 ^ (53 : ℕ) * 2 ^ (970 : ℤ) * 2 := by norm_num
    have e4 : (b : ℚ) * 2 ^ l ≤ 2 ^ (53 : ℕ) * 2 ^ (970 : ℤ) :=
      mul_le_mul e1.le e2 (two_zpow_pos l).le (by positivity)
    have e5 : (0 : ℚ) < 2 ^ (53 : ℕ) * 2 ^ (970 : ℤ) := by positivity
    rw [e3]
    linarith
  refine ⟨roundUnbounded x, ?_, h1, h2⟩
  unfold roundDouble
  rw [if_pos]
  rw [abs_of_nonneg (roundUnbounded_nonneg hx)]
  exact lt_of_le_of_lt h2 h3

theorem d2u_eq_of_floor {r : ℚ} (K : ℕ) (h1 : (K : ℚ) ≤ r) (h2 : r < (K : ℚ) + 1)
    (hK : K < 2 ^ 32) : d2u r = some K := by
  have hr : 0 ≤ r := (Nat.cast_nonneg K).trans h1
  have hf : ⌊r⌋ = (K : ℤ) := by
    rw [Int.floor_eq_iff]
    exact ⟨by exact_mod_cast h1, by exact_mod_cast h2⟩
  unfold d2u truncToZero
  rw [if_pos hr, hf]
  rw [if_pos ⟨by omega, by exact_mod_cast hK⟩]
  simp

theorem roundDouble_three_tenths :
    roundDouble (3 / 10) = some (5404319552844595 / 18014398509481984) := by
  have h := roundDouble_eq_of_near (q := 3 / 10) (e := -2) (z := 5404319552844595)
    (by norm_num) (by norm_num) (by norm_num) (by norm_num)
    (by rw [abs_lt]; constructor <;> norm_num)
    (by rw [abs_lt]; constructor <;> norm_num)
  rw [h]
  norm_num

theorem roundDouble_six_eighty_five :
    roundDouble (685 / 100) = some (7712414361871974 / 1125899906842624) := by
  have h := roundDouble_eq_of_near (q := 685 / 100) (e := 2) (z := 7712414361871974)
    (by norm_num) (by norm_num) (by norm_num) (by norm_num)
    (by rw [abs_lt]; constructor <;> norm_num)
    (by rw [abs_lt]; constructor <;> norm_num)
  rw [h]
  norm_num


theorem bind_eq_of_eq_some {α β : Type} {o : Option α} {a : α} {f : α → Option β}
    {b : Option β} (h1 : o = some a) (h2 : f a = b) : o.bind f = b := by
  subst h1
  exact h2

theorem fdiv_of_ne_zero (a b : ℚ) (hb : b ≠ 0) : fdiv a b = roundDouble (a / b) :=
  if_neg hb

/-- Range-B scaling computes `floor(10*m/3)` on the whole admitted range. -/
theorem scale10V_eq (m : Nat) (hm : m ≤ 3000000) : scale10V m = some (10 * m / 3) := by
  have hK1 : 3 * (10 * m / 3) ≤ 10 * m := by omega
  have hK2 : 10 * m ≤ 3 * (10 * m / 3) + 2 := by omega
  have hK3 : 10 * m / 3 ≤ 10000000 := by omega
  generalize 10 * m / 3 = K at hK1 hK2 hK3 ⊢
  have q1 : (3 : ℚ) * K ≤ 10 * m := by exact_mod_cast hK1
  have q2 : (10 : ℚ) * m ≤ 3 * K + 2 := by exact_mod_cast hK2
  have q3 : (K : ℚ) ≤ 10000000 := by exact_mod_cast hK3
  have q0 : (0 : ℚ) ≤ K := Nat.cast_nonneg K
  have hc : (0 : ℚ) < 5404319552844595 / 18014398509481984 := by norm_num
  obtain ⟨r, hr, h1, h2⟩ := roundDouble_sandwich
    (x := (m : ℚ) / (5404319552844595 / 18014398509481984)) K (4 * K + 3) 0 (-2)
    (by omega) (by omega) (by norm_num) (by norm_num) (by norm_num)
    (by
      rw [zpow_zero, mul_one, le_div_iff₀ hc]
      linarith)
    (by
      rw [div_le_iff₀ hc]
      push_cast
      norm_num
      linarith)
  have hd : d2u r = some K := by
    apply d2u_eq_of_floor K
    · simpa using h1
    · have : ((4 * K + 3 : ℕ) : ℚ) * 2 ^ (-2 : ℤ) < (K : ℚ) + 1 := by
        push_cast
        norm_num
        linarith
      linarith
    · omega
  exact bind_eq_of_eq_some roundDouble_three_tenths
    (bind_eq_of_eq_some ((fdiv_of_ne_zero _ _ hc.ne').trans hr) hd)

/-- Range-C scaling computes `floor(20*m/137) - 1200` from `m = 8220` upward. -/
theorem scale500mA_eq (m : Nat) (hlo : 8220 ≤ m) (hm : m ≤ 3000000) :
    scale500mA m = some (20 * m / 137 - 1200) := by
  have hK1 : 137 * (20 * m / 137) ≤ 20 * m := by omega
  have hK2 : 20 * m ≤ 137 * (20 * m / 137) + 136 := by omega
  have hK3 : 20 * m / 137 ≤ 437957 := by omega
  have hK4 : 1200 ≤ 20 * m / 137 := by omega
  generalize 20 * m / 137 = K at hK1 hK2 hK3 hK4 ⊢
  obtain ⟨J, rfl⟩ : ∃ J, K = J + 1200 := ⟨K - 1200, by omega⟩
  have hJ : J + 1200 - 1200 = J := by omega
  rw [hJ]
  have q1 : (137 : ℚ) * (J + 1200) ≤ 20 * m := by exact_mod_cast hK1
  have q2 : (20 : ℚ) * m ≤ 137 * (J + 1200) + 136 := by exact_mod_cast hK2
  have q3 : (J : ℚ) ≤ 437957 := by
    have : J ≤ 437957 := by omega
    exact_mod_cast this
  have q0 : (0 : ℚ) ≤ J := Nat.cast_nonneg J
  have hc : (0 : ℚ) < 7712414361871974 / 1125899906842624 := by norm_num
  obtain ⟨r, hr, h1, h2⟩ := roundDouble_sandwich
    (x := (m : ℚ) / (7712414361871974 / 1125899906842624)) (J + 1200) (256 * (J + 1200) + 255)
    0 (-8) (by omega) (by omega) (by norm_num) (by norm_num) (by norm_num)
    (by
      rw [zpow_zero, mul_one, le_div_iff₀ hc]
      push_cast
      linarith)
    (by
      rw [div_le_iff₀ hc]
      push_cast
      norm_num
      linarith)
  obtain ⟨t, ht, h3, h4⟩ := roundDouble_sandwich
    (x := r - 1200) J (256 * J + 255) 0 (-8)
    (by omega) (by omega) (by norm_num) (by norm_num) (by norm_num)
    (by
      rw [zpow_zero, mul_one]
      push_cast at h1
      rw [zpow_zero, mul_one] at h1
      linarith)
    (by
      push_cast at h2 ⊢
      norm_num at h2 ⊢
      linarith)
  have hd : d2u t = some J := by
    apply d2u_eq_of_floor J
    · simpa using h3
    · have : ((256 * J + 255 : ℕ) : ℚ) * 2 ^ (-8 : ℤ) < (J : ℚ) + 1 := by
        push_cast
        norm_num
        linarith
      linarith
    · omega
  exact bind_eq_of_eq_some roundDouble_six_eighty_five
    (bind_eq_of_eq_some ((fdiv_of_ne_zero _ _ hc.ne').trans hr) (bind_eq_of_eq_some ht hd))

/-! ## The acquisition cycle -/

theorem getMedian_constantCycle (v : Nat) :
    getMedian ADC_BUFFER_SIZE (constantCycle v).microVolts = v := by
  have h := getMedian_mem (List.replicate ADC_BUFFER_SIZE v) (by simp [ADC_BUFFER_SIZE])
  rw [List.length_replicate] at h
  exact List.eq_of_mem_replicate h

theorem constantCycle_wellFormed (v : Nat) (hv : v < 2 ^ 32) : (constantCycle v).WellFormed := by
  refine ⟨by simp [constantCycle], ?_⟩
  intro w hw
  rw [List.eq_of_mem_replicate hw]
  exact hv

theorem getMedian_lt_of_wellFormed (adc : AdcCycle) (hwf : adc.WellFormed) :
    getMedian ADC_BUFFER_SIZE adc.microVolts < 2 ^ 32 := by
  have h := getMedian_mem adc.microVolts (by rw [hwf.1]; decide)
  rw [hwf.1] at h
  exact hwf.2 _ h

theorem serialize_eq (v : Nat) :
    serialize v = [v / 2 ^ 24 % 256, v / 2 ^ 16 % 256, v / 2 ^ 8 % 256, v % 256] := by
  simp [serialize, MULTIMETERPROFILE_CHAR4_LEN, List.range', byteAt]

theorem decodeBigEndian_serialize (v : Nat) (hv : v < 2 ^ 32) :
    decodeBigEndian (serialize v) = v := by
  rw [serialize_eq]
  simp only [decodeBigEndian, List.foldl_cons, List.foldl_nil]
  omega

/-- A cycle whose three driver calls succeed and whose scaled value is `v`
returns, with `v` stored and its serialisation published. -/
theorem performPeriodicTask_of_scaled (adc : AdcCycle) (s : AppState) (v : Nat)
    (h1 : adc.convertOk = true) (h2 : adc.adjustOk = true) (h3 : adc.toMicroVoltsOk = true)
    (hv : scaleMeasurement s.multimeterMode (getMedian ADC_BUFFER_SIZE adc.microVolts) = some v) :
    ∃ s', Multimeter_performPeriodicTask adc s = some s' ∧
      s'.adcValue0MicroVolt = v ∧ s'.value2copy = serialize v ∧ s'.char4 = serialize v ∧
      s'.multimeterMode = s.multimeterMode ∧ s'.multimeterIsOn = s.multimeterIsOn ∧
      s'.trace = s.trace ++ [Effect.adcConvert, Effect.adcAdjustRawValues,
        Effect.adcConvertAdjustedToMicroVolts, Effect.setChar4 (serialize v)] := by
  simp [Multimeter_performPeriodicTask, h1, h2, h3, AppState.emit, hv,
    MultimeterProfile_SetParameter_CHAR4]

theorem d2u_lt {q : ℚ} {n : ℕ} (h : d2u q = some n) : n < 2 ^ 32 := by
  unfold d2u at h
  split at h
  · rename_i hc
    have e : (truncToZero q).toNat = n := Option.some.inj h
    have := hc.1
    have := hc.2
    omega
  · exact absurd h (by simp)

theorem scale10V_lt {m r : ℕ} (h : scale10V m = some r) : r < 2 ^ 32 := by
  unfold scale10V at h
  obtain ⟨c, -, h⟩ := Option.bind_eq_some.mp h
  obtain ⟨q, -, h⟩ := Option.bind_eq_some.mp h
  exact d2u_lt h

theorem scale500mA_lt {m r : ℕ} (h : scale500mA m = some r) : r < 2 ^ 32 := by
  unfold scale500mA at h
  obtain ⟨c, -, h⟩ := Option.bind_eq_some.mp h
  obtain ⟨q, -, h⟩ := Option.bind_eq_some.mp h
  obtain ⟨d, -, h⟩ := Option.bind_eq_some.mp h
  exact d2u_lt h

theorem scaleMeasurement_lt {mode v r : ℕ} (hv : v < 2 ^ 32)
    (h : scaleMeasurement mode v = some r) : r < 2 ^ 32 := by
  unfold scaleMeasurement at h
  split at h
  · have := Option.some.inj h
    omega
  · split at h
    · exact scale10V_lt h
    · split at h
      · exact scale500mA_lt h
      · have := Option.some.inj h
        omega

theorem scaleMeasurement_overflow (mode v : ℕ) (hv : 3000001 ≤ v) :
    scaleMeasurement mode v = some 4294967295 := by
  unfold scaleMeasurement
  rw [if_pos (by omega)]

theorem scaleMeasurement_3V (v : ℕ) (hv : v ≤ 3000000) :
    scaleMeasurement MultimeterMode_3V v = some v := by
  unfold scaleMeasurement
  rw [if_neg (by omega), if_neg (by decide), if_neg (by decide)]

theorem scaleMeasurement_10V (v : ℕ) (hv : v ≤ 3000000) :
    scaleMeasurement MultimeterMode_10V v = some (10 * v / 3) := by
  unfold scaleMeasurement
  rw [if_neg (by omega), if_pos rfl]
  exact scale10V_eq v hv

theorem scaleMeasurement_500mA (v : ℕ) (hlo : 8220 ≤ v) (hv : v ≤ 3000000) :
    scaleMeasurement MultimeterMode_500mA v = some (20 * v / 137 - 1200) := by
  unfold scaleMeasurement
  rw [if_neg (by omega), if_neg (by decide), if_pos rfl]
  exact scale500mA_eq v hlo hv

/-- C4. In `Multimeter_performPeriodicTask`, whatever the mode (in particular
Range-A, Range-B and Range-C), a successfully converted batch whose median
is 3,000,001 or greater publishes the overflow sentinel `0xFFFFFFFF` (bytes
`FF FF FF FF`): the stored value is the sentinel itself, no scaling applied. -/
theorem overflow_publishes_sentinel (adc : AdcCycle) (s : AppState)
    (h1 : adc.convertOk = true) (h2 : adc.adjustOk = true) (h3 : adc.toMicroVoltsOk = true)
    (hmed : 3000001 ≤ getMedian ADC_BUFFER_SIZE adc.microVolts) :
    ∃ s', Multimeter_performPeriodicTask adc s = some s' ∧
      s'.adcValue0MicroVolt = 0xFFFFFFFF ∧
      s'.char4 = [0xFF, 0xFF, 0xFF, 0xFF] ∧
      decodeBigEndian s'.char4 = 0xFFFFFFFF := by
  obtain ⟨s', hs, ha, -, hc, -⟩ := performPeriodicTask_of_scaled adc s 4294967295 h1 h2 h3
    (scaleMeasurement_overflow _ _ hmed)
  refine ⟨s', hs, ha, ?_, ?_⟩
  · rw [hc, serialize_eq]
    norm_num
  · rw [hc, decodeBigEndian_serialize _ (by norm_num)]

theorem overflow_publishes_sentinel_witness :
    ((constantCycle 3000001).convertOk = true ∧ (constantCycle 3000001).adjustOk = true ∧
      (constantCycle 3000001).toMicroVoltsOk = true ∧
      3000001 ≤ getMedian ADC_BUFFER_SIZE (constantCycle 3000001).microVolts) ∧
    ∃ s', Multimeter_performPeriodicTask (constantCycle 3000001)
        { initState with multimeterMode := MultimeterMode_10V } = some s' ∧
      s'.adcValue0MicroVolt = 0xFFFFFFFF ∧
      s'.char4 = [0xFF, 0xFF, 0xFF, 0xFF] ∧
      decodeBigEndian s'.char4 = 0xFFFFFFFF :=
  ⟨⟨rfl, rfl, rfl, le_of_eq (getMedian_constantCycle 3000001).symm⟩,
    overflow_publishes_sentinel (constantCycle 3000001)
      { initState with multimeterMode := MultimeterMode_10V } rfl rfl rfl
      (le_of_eq (getMedian_constantCycle 3000001).symm)⟩

/-- C5. In Range-A (`MultimeterMode_3V`), a successfully converted batch whose
median `m` satisfies `m ≤ 3,000,000` (3,000,000 included) publishes `m`
unchanged: the stored 32-bit value is `m` and the published bytes decode to
`m`. -/
theorem rangeA_publishes_median (adc : AdcCycle) (s : AppState)
    (h1 : adc.convertOk = true) (h2 : adc.adjustOk = true) (h3 : adc.toMicroVoltsOk = true)
    (hmode : s.multimeterMode = MultimeterMode_3V)
    (hmed : getMedian ADC_BUFFER_SIZE adc.microVolts ≤ 3000000) :
    ∃ s', Multimeter_performPeriodicTask adc s = some s' ∧
      s'.adcValue0MicroVolt = getMedian ADC_BUFFER_SIZE adc.microVolts ∧
      s'.char4 = serialize (getMedian ADC_BUFFER_SIZE adc.microVolts) ∧
      decodeBigEndian s'.char4 = getMedian ADC_BUFFER_SIZE adc.microVolts := by
  obtain ⟨s', hs, ha, -, hc, -⟩ := performPeriodicTask_of_scaled adc s _ h1 h2 h3
    (by rw [hmode]; exact scaleMeasurement_3V _ hmed)
  refine ⟨s', hs, ha, hc, ?_⟩
  rw [hc, decodeBigEndian_serialize _ (by omega)]

theorem rangeA_publishes_median_witness :
    ((constantCycle 3000000).convertOk = true ∧ (constantCycle 3000000).adjustOk = true ∧
      (constantCycle 3000000).toMicroVoltsOk = true ∧
      ({ initState with multimeterMode := MultimeterMode_3V } : AppState).multimeterMode
        = MultimeterMode_3V ∧
      getMedian ADC_BUFFER_SIZE (constantCycle 3000000).microVolts ≤ 3000000) ∧
    ∃ s', Multimeter_performPeriodicTask (constantCycle 3000000)
        { initState with multimeterMode := MultimeterMode_3V } = some s' ∧
      s'.adcValue0MicroVolt = getMedian ADC_BUFFER_SIZE (constantCycle 3000000).microVolts ∧
      s'.char4 = serialize (getMedian ADC_BUFFER_SIZE (constantCycle 3000000).microVolts) ∧
      decodeBigEndian s'.char4 = getMedian ADC_BUFFER_SIZE (constantCycle 3000000).microVolts :=
  ⟨⟨rfl, rfl, rfl, rfl, le_of_eq (getMedian_constantCycle 3000000)⟩,
    rangeA_publishes_median (constantCycle 3000000)
      { initState with multimeterMode := MultimeterMode_3V } rfl rfl rfl rfl
      (le_of_eq (getMedian_constantCycle 3000000))⟩

theorem floor_div_three_tenths (m : ℕ) : ⌊(m : ℚ) / (3 / 10)⌋ = ((10 * m / 3 : ℕ) : ℤ) := by
  have hK1 : 3 * (10 * m / 3) ≤ 10 * m := by omega
  have hK2 : 10 * m < 3 * (10 * m / 3) + 3 := by omega
  generalize 10 * m / 3 = K at hK1 hK2 ⊢
  have q1 : (3 : ℚ) * K ≤ 10 * m := by exact_mod_cast hK1
  have q2 : (10 : ℚ) * m < 3 * K + 3 := by exact_mod_cast hK2
  rw [Int.floor_eq_iff]
  have e : (m : ℚ) / (3 / 10) = 10 * m / 3 := by ring
  rw [e]
  push_cast
  constructor
  · rw [le_div_iff₀ (by norm_num)]; linarith
  · rw [div_lt_iff₀ (by norm_num)]; linarith

theorem floor_div_six_eighty_five (m : ℕ) :
    ⌊(m : ℚ) / (685 / 100)⌋ = ((20 * m / 137 : ℕ) : ℤ) := by
  have hK1 : 137 * (20 * m / 137) ≤ 20 * m := by omega
  have hK2 : 20 * m < 137 * (20 * m / 137) + 137 := by omega
  generalize 20 * m / 137 = K at hK1 hK2 ⊢
  have q1 : (137 : ℚ) * K ≤ 20 * m := by exact_mod_cast hK1
  have q2 : (20 : ℚ) * m < 137 * K + 137 := by exact_mod_cast hK2
  rw [Int.floor_eq_iff]
  have e : (m : ℚ) / (685 / 100) = 20 * m / 137 := by ring
  rw [e]
  push_cast
  constructor
  · rw [le_div_iff₀ (by norm_num)]; linarith
  · rw [div_lt_iff₀ (by norm_num)]; linarith

/-- C6. In Range-B (`MultimeterMode_10V`), a successfully converted batch whose
median `m` satisfies `m ≤ 3,000,000` publishes `m / 0.3` truncated to an
integer, which is `floor(10*m/3)` in exact rational arithmetic; the value is
at most 10,000,000 and fits in 32 bits, and `m = 300,000` publishes
1,000,000. -/
theorem rangeB_publishes_scaled (adc : AdcCycle) (s : AppState)
    (h1 : adc.convertOk = true) (h2 : adc.adjustOk = true) (h3 : adc.toMicroVoltsOk = true)
    (hmode : s.multimeterMode = MultimeterMode_10V)
    (hmed : getMedian ADC_BUFFER_SIZE adc.microVolts ≤ 3000000) :
    ∃ s', Multimeter_performPeriodicTask adc s = some s' ∧
      s'.adcValue0MicroVolt = 10 * getMedian ADC_BUFFER_SIZE adc.microVolts / 3 ∧
      (s'.adcValue0MicroVolt : ℤ) = ⌊(getMedian ADC_BUFFER_SIZE adc.microVolts : ℚ) / (3 / 10)⌋ ∧
      decodeBigEndian s'.char4 = 10 * getMedian ADC_BUFFER_SIZE adc.microVolts / 3 ∧
      s'.adcValue0MicroVolt ≤ 10000000 ∧ s'.adcValue0MicroVolt < 2 ^ 32 ∧
      (getMedian ADC_BUFFER_SIZE adc.microVolts = 300000 →
        s'.adcValue0MicroVolt = 1000000 ∧ decodeBigEndian s'.char4 = 1000000) := by
  obtain ⟨s', hs, ha, -, hc, -⟩ := performPeriodicTask_of_scaled adc s _ h1 h2 h3
    (by rw [hmode]; exact scaleMeasurement_10V _ hmed)
  generalize getMedian ADC_BUFFER_SIZE adc.microVolts = m at hmed ha hc ⊢
  have hd : decodeBigEndian s'.char4 = 10 * m / 3 := by
    rw [hc, decodeBigEndian_serialize _ (by omega)]
  refine ⟨s', hs, ha, ?_, hd, by omega, by omega, ?_⟩
  · rw [ha, floor_div_three_tenths]
  · intro hm
    subst hm
    exact ⟨by rw [ha], by rw [hd]⟩

theorem rangeB_publishes_scaled_witness :
    ((constantCycle 300000).convertOk = true ∧ (constantCycle 300000).adjustOk = true ∧
      (constantCycle 300000).toMicroVoltsOk = true ∧
      ({ initState with multimeterMode := MultimeterMode_10V } : AppState).multimeterMode
        = MultimeterMode_10V ∧
      getMedian ADC_BUFFER_SIZE (constantCycle 300000).microVolts ≤ 3000000) ∧
    ∃ s', Multimeter_performPeriodicTask (constantCycle 300000)
        { initState with multimeterMode := MultimeterMode_10V } = some s' ∧
      s'.adcValue0MicroVolt = 10 * getMedian ADC_BUFFER_SIZE (constantCycle 300000).microVolts / 3 ∧
      (s'.adcValue0MicroVolt : ℤ)
        = ⌊(getMedian ADC_BUFFER_SIZE (constantCycle 300000).microVolts : ℚ) / (3 / 10)⌋ ∧
      decodeBigEndian s'.char4
        = 10 * getMedian ADC_BUFFER_SIZE (constantCycle 300000).microVolts / 3 ∧
      s'.adcValue0MicroVolt ≤ 10000000 ∧ s'.adcValue0MicroVolt < 2 ^ 32 ∧
      (getMedian ADC_BUFFER_SIZE (constantCycle 300000).microVolts = 300000 →
        s'.adcValue0MicroVolt = 1000000 ∧ decodeBigEndian s'.char4 = 1000000) :=
  ⟨⟨rfl, rfl, rfl, rfl, by rw [getMedian_constantCycle]; decide⟩,
    rangeB_publishes_scaled (constantCycle 300000)
      { initState with multimeterMode := MultimeterMode_10V } rfl rfl rfl rfl
      (by rw [getMedian_constantCycle]; decide)⟩

/-- C7. In Range-C (`MultimeterMode_500mA`), a successfully converted batch
whose median `m` satisfies `8,220 ≤ m ≤ 3,000,000` publishes `m / 6.85 - 1200`
truncated to an integer, which is `floor(20*m/137) - 1200` in exact rational
arithmetic; `m = 8,220` publishes 0. -/
theorem rangeC_publishes_scaled (adc : AdcCycle) (s : AppState)
    (h1 : adc.convertOk = true) (h2 : adc.adjustOk = true) (h3 : adc.toMicroVoltsOk = true)
    (hmode : s.multimeterMode = MultimeterMode_500mA)
    (hlo : 8220 ≤ getMedian ADC_BUFFER_SIZE adc.microVolts)
    (hmed : getMedian ADC_BUFFER_SIZE adc.microVolts ≤ 3000000) :
    ∃ s', Multimeter_performPeriodicTask adc s = some s' ∧
      s'.adcValue0MicroVolt = 20 * getMedian ADC_BUFFER_SIZE adc.microVolts / 137 - 1200 ∧
      (s'.adcValue0MicroVolt : ℤ)
        = ⌊(getMedian ADC_BUFFER_SIZE adc.microVolts : ℚ) / (685 / 100)⌋ - 1200 ∧
      decodeBigEndian s'.char4 = 20 * getMedian ADC_BUFFER_SIZE adc.microVolts / 137 - 1200 ∧
      (getMedian ADC_BUFFER_SIZE adc.microVolts = 8220 →
        s'.adcValue0MicroVolt = 0 ∧ s'.char4 = [0, 0, 0, 0]) := by
  obtain ⟨s', hs, ha, -, hc, -⟩ := performPeriodicTask_of_scaled adc s _ h1 h2 h3
    (by rw [hmode]; exact scaleMeasurement_500mA _ hlo hmed)
  generalize getMedian ADC_BUFFER_SIZE adc.microVolts = m at hlo hmed ha hc ⊢
  have hd : decodeBigEndian s'.char4 = 20 * m / 137 - 1200 := by
    rw [hc, decodeBigEndian_serialize _ (by omega)]
  refine ⟨s', hs, ha, ?_, hd, ?_⟩
  · rw [ha, floor_div_six_eighty_five]
    have : 1200 ≤ 20 * m / 137 := by omega
    omega
  · intro hm
    subst hm
    refine ⟨by rw [ha], ?_⟩
    rw [hc, serialize_eq]
    norm_num

theorem rangeC_publishes_scaled_witness :
    ((constantCycle 8220).convertOk = true ∧ (constantCycle 8220).adjustOk = true ∧
      (constantCycle 8220).toMicroVoltsOk = true ∧
      ({ initState with multimeterMode := MultimeterMode_500mA } : AppState).multimeterMode
        = MultimeterMode_500mA ∧
      8220 ≤ getMedian ADC_BUFFER_SIZE (constantCycle 8220).microVolts ∧
      getMedian ADC_BUFFER_SIZE (constantCycle 8220).microVolts ≤ 3000000) ∧
    ∃ s', Multimeter_performPeriodicTask (constantCycle 8220)
        { initState with multimeterMode := MultimeterMode_500mA } = some s' ∧
      s'.adcValue0MicroVolt
        = 20 * getMedian ADC_BUFFER_SIZE (constantCycle 8220).microVolts / 137 - 1200 ∧
      (s'.adcValue0MicroVolt : ℤ)
        = ⌊(getMedian ADC_BUFFER_SIZE (constantCycle 8220).microVolts : ℚ) / (685 / 100)⌋ - 1200 ∧
      decodeBigEndian s'.char4
        = 20 * getMedian ADC_BUFFER_SIZE (constantCycle 8220).microVolts / 137 - 1200 ∧
      (getMedian ADC_BUFFER_SIZE (constantCycle 8220).microVolts = 8220 →
        s'.adcValue0MicroVolt = 0 ∧ s'.char4 = [0, 0, 0, 0]) :=
  ⟨⟨rfl, rfl, rfl, rfl, by rw [getMedian_constantCycle], by rw [getMedian_constantCycle]; decide⟩,
    rangeC_publishes_scaled (constantCycle 8220)
      { initState with multimeterMode := MultimeterMode_500mA } rfl rfl rfl rfl
      (by rw [getMedian_constantCycle]) (by rw [getMedian_constantCycle]; decide)⟩

/-- C8. For every successful cycle (the three driver calls succeed on a
well-formed batch and the scaled value `v` is defined), the 4 published bytes
`b0, b1, b2, b3` (`value2copy[0..3]`) are `v` most-significant byte first:
`b0*2^24 + b1*2^16 + b2*2^8 + b3 = v`, so decoding them as big-endian
recovers the stored 32-bit result exactly. -/
theorem published_bytes_big_endian (adc : AdcCycle) (s : AppState) (v : Nat)
    (hwf : adc.WellFormed)
    (h1 : adc.convertOk = true) (h2 : adc.adjustOk = true) (h3 : adc.toMicroVoltsOk = true)
    (hv : scaleMeasurement s.multimeterMode (getMedian ADC_BUFFER_SIZE adc.microVolts) = some v) :
    ∃ s' b0 b1 b2 b3, Multimeter_performPeriodicTask adc s = some s' ∧
      s'.adcValue0MicroVolt = v ∧ v < 2 ^ 32 ∧
      s'.value2copy = [b0, b1, b2, b3] ∧ s'.char4 = [b0, b1, b2, b3] ∧
      b0 < 256 ∧ b1 < 256 ∧ b2 < 256 ∧ b3 < 256 ∧
      b0 * 2 ^ 24 + b1 * 2 ^ 16 + b2 * 2 ^ 8 + b3 = v ∧
      decodeBigEndian s'.char4 = v := by
  obtain ⟨s', hs, ha, hb, hc, -⟩ := performPeriodicTask_of_scaled adc s v h1 h2 h3 hv
  have hlt : v < 2 ^ 32 := scaleMeasurement_lt (getMedian_lt_of_wellFormed adc hwf) hv
  refine ⟨s', v / 2 ^ 24 % 256, v / 2 ^ 16 % 256, v / 2 ^ 8 % 256, v % 256, hs, ha, hlt,
    by rw [hb, serialize_eq], by rw [hc, serialize_eq], ?_, ?_, ?_, ?_, ?_, ?_⟩
  · omega
  · omega
  · omega
  · omega
  · omega
  · rw [hc, decodeBigEndian_serialize v hlt]

theorem published_bytes_big_endian_witness :
    ((constantCycle 66051).WellFormed ∧
      (constantCycle 66051).convertOk = true ∧ (constantCycle 66051).adjustOk = true ∧
      (constantCycle 66051).toMicroVoltsOk = true ∧
      scaleMeasurement ({ initState with multimeterMode := MultimeterMode_3V } : AppState).multimeterMode
        (getMedian ADC_BUFFER_SIZE (constantCycle 66051).microVolts) = some 66051) ∧
    ∃ s' b0 b1 b2 b3, Multimeter_performPeriodicTask (constantCycle 66051)
        { initState with multimeterMode := MultimeterMode_3V } = some s' ∧
      s'.adcValue0MicroVolt = 66051 ∧ 66051 < 2 ^ 32 ∧
      s'.value2copy = [b0, b1, b2, b3] ∧ s'.char4 = [b0, b1, b2, b3] ∧
      b0 < 256 ∧ b1 < 256 ∧ b2 < 256 ∧ b3 < 256 ∧
      b0 * 2 ^ 24 + b1 * 2 ^ 16 + b2 * 2 ^ 8 + b3 = 66051 ∧
      decodeBigEndian s'.char4 = 66051 :=
  ⟨⟨constantCycle_wellFormed 66051 (by norm_num), rfl, rfl, rfl,
      by rw [getMedian_constantCycle]; exact scaleMeasurement_3V 66051 (by norm_num)⟩,
    published_bytes_big_endian (constantCycle 66051)
      { initState with multimeterMode := MultimeterMode_3V } 66051
      (constantCycle_wellFormed 66051 (by norm_num)) rfl rfl rfl
      (by rw [getMedian_constantCycle]; exact scaleMeasurement_3V 66051 (by norm_num))⟩

/-! ## The mode controller -/

/-- Turning on from Idle: a mode change to `MultimeterMode_3V` with a
successful open starts the clock, opens the ADC and drives both lines low. -/
theorem modeChanged_3V_from_idle (s : AppState) (hidle : s.multimeterIsOn = false) :
    modeChanged MultimeterMode_3V true s = some
      { s with
        char1 := MultimeterMode_3V
        multimeterMode := MultimeterMode_3V
        multimeterIsOn := true
        clockActive := true
        adcIsOpen := true
        dio21 := 0
        dio22 := 0
        trace := s.trace ++ [Effect.startClock, Effect.adcOpen,
          Effect.pinSet Pin.Board_DIO21 0, Effect.pinSet Pin.Board_DIO22 0] } := by
  simp [modeChanged, Multimeter_processCharValueChangeEvt, MultimeterProfile_GetParameter_CHAR1,
    MULTIMETERPROFILE_CHAR1, MultimeterMode_3V, MultimeterMode_Off, MultimeterMode_Ohm, hidle,
    Util_startClock, ADCBuf_open, PIN_setOutputValue, AppState.emit]

/-- A mode change to a mode other than Off and Ohm while the multimeter is on
only selects the switch lines. -/
theorem modeChanged_active_while_on (s : AppState) (mode : Nat) (ok : Bool)
    (hon : s.multimeterIsOn = true) (h0 : mode ≠ MultimeterMode_Off)
    (h4 : mode ≠ MultimeterMode_Ohm) :
    modeChanged mode ok s = some
      (if mode = MultimeterMode_3V then
        { s with
          char1 := mode
          multimeterMode := mode
          dio21 := 0
          dio22 := 0
          trace := s.trace ++ [Effect.pinSet Pin.Board_DIO21 0, Effect.pinSet Pin.Board_DIO22 0] }
      else if mode = MultimeterMode_10V then
        { s with
          char1 := mode
          multimeterMode := mode
          dio21 := 0
          dio22 := 1
          trace := s.trace ++ [Effect.pinSet Pin.Board_DIO21 0, Effect.pinSet Pin.Board_DIO22 1] }
      else if mode = MultimeterMode_500mA then
        { s with
          char1 := mode
          multimeterMode := mode
          dio21 := 1
          trace := s.trace ++ [Effect.pinSet Pin.Board_DIO21 1] }
      else { s with char1 := mode, multimeterMode := mode }) := by
  simp only [modeChanged, Multimeter_processCharValueChangeEvt,
    MultimeterProfile_GetParameter_CHAR1, if_true]
  rw [if_neg (by simp [h0, h4])]
  simp only [hon, Bool.not_true, Bool.false_eq_true, if_false, Option.bind_eq_bind,
    Option.some_bind, bind, PIN_setOutputValue, AppState.emit]
  split_ifs <;> simp

/-- Turning off: a mode change to `MultimeterMode_Off` while the multimeter is
on stops the clock, cancels the conversion, closes the ADC, zeroes the
published measurement and drives both lines low. -/
theorem modeChanged_off_while_on (s : AppState) (ok : Bool) (hon : s.multimeterIsOn = true) :
    modeChanged MultimeterMode_Off ok s = some
      { s with
        char1 := MultimeterMode_Off
        multimeterMode := MultimeterMode_Off
        multimeterIsOn := false
        clockActive := false
        adcIsOpen := false
        char4 := [0, 0, 0, 0]
        dio21 := 0
        dio22 := 0
        trace := s.trace ++ [Effect.stopClock, Effect.adcConvertCancel, Effect.adcClose,
          Effect.setChar4 [0, 0, 0, 0], Effect.pinSet Pin.Board_DIO21 0,
          Effect.pinSet Pin.Board_DIO22 0] } := by
  simp [modeChanged, Multimeter_processCharValueChangeEvt, MultimeterProfile_GetParameter_CHAR1,
    MULTIMETERPROFILE_CHAR1, MultimeterMode_Off, hon, Util_stopClock, ADCBuf_convertCancel,
    ADCBuf_close, MultimeterProfile_SetParameter_CHAR4, PIN_setOutputValue, AppState.emit]

/-- Range-A to Range-B while on: only the two switch lines are written. -/
theorem modeChanged_10V_while_on (s : AppState) (ok : Bool) (hon : s.multimeterIsOn = true) :
    modeChanged MultimeterMode_10V ok s = some
      { s with
        char1 := MultimeterMode_10V
        multimeterMode := MultimeterMode_10V
        dio21 := 0
        dio22 := 1
        trace := s.trace ++ [Effect.pinSet Pin.Board_DIO21 0, Effect.pinSet Pin.Board_DIO22 1] } := by
  rw [modeChanged_active_while_on s MultimeterMode_10V ok hon (by decide) (by decide),
    if_neg (by decide), if_pos rfl]

/-- C9. Starting from Idle, processing `ModeChanged(Range-A)` then
`ModeChanged(Range-B)` (the ADC open succeeding) issues exactly one front-end
open and no cancel or close; the second transition only writes the two GPIO
lines, leaving the first low and the second high, and acquisition stays
Running.  More generally, any `ModeChanged` to a mode other than Off and Ohm
while already Running performs no open, no cancel, no close and no clock call,
and leaves acquisition Running. -/
theorem off_rangeA_rangeB_opens_once (s : AppState) (hidle : s.multimeterIsOn = false) :
    (∃ s1 s2, modeChanged MultimeterMode_3V true s = some s1 ∧
      modeChanged MultimeterMode_10V true s1 = some s2 ∧
      s1.trace = s.trace ++ [Effect.startClock, Effect.adcOpen,
        Effect.pinSet Pin.Board_DIO21 0, Effect.pinSet Pin.Board_DIO22 0] ∧
      s2.trace = s1.trace ++ [Effect.pinSet Pin.Board_DIO21 0, Effect.pinSet Pin.Board_DIO22 1] ∧
      (s2.trace.drop s.trace.length).count Effect.adcOpen = 1 ∧
      (s2.trace.drop s.trace.length).count Effect.adcClose = 0 ∧
      (s2.trace.drop s.trace.length).count Effect.adcConvertCancel = 0 ∧
      s1.multimeterIsOn = true ∧ s1.adcIsOpen = true ∧
      s2.multimeterIsOn = true ∧ s2.adcIsOpen = true ∧ s2.clockActive = true ∧
      s2.multimeterMode = MultimeterMode_10V ∧
      s2.dio21 = 0 ∧ s2.dio22 = 1) ∧
    (∀ (t : AppState) (mode : Nat) (ok : Bool), t.multimeterIsOn = true →
      mode ≠ MultimeterMode_Off → mode ≠ MultimeterMode_Ohm →
      ∃ t' w, modeChanged mode ok t = some t' ∧ t'.trace = t.trace ++ w ∧
        Effect.adcOpen ∉ w ∧ Effect.adcClose ∉ w ∧ Effect.adcConvertCancel ∉ w ∧
        Effect.startClock ∉ w ∧ Effect.stopClock ∉ w ∧
        t'.multimeterIsOn = true ∧ t'.adcIsOpen = t.adcIsOpen ∧
        t'.clockActive = t.clockActive ∧ t'.char4 = t.char4) := by
  constructor
  · refine ⟨_, _, modeChanged_3V_from_idle s hidle, modeChanged_10V_while_on _ true rfl, ?_⟩
    have e : ∀ w : List Effect, (s.trace ++ w).drop s.trace.length = w := fun w =>
      List.drop_left _ _
    simp only [List.append_assoc, List.cons_append, List.nil_append, e]
    decide
  · intro t mode ok hon h0 h4
    rw [modeChanged_active_while_on t mode ok hon h0 h4]
    split_ifs
    · exact ⟨_, _, rfl, rfl, by simp, by simp, by simp, by simp, by simp, hon, rfl, rfl, rfl⟩
    · exact ⟨_, _, rfl, rfl, by simp, by simp, by simp, by simp, by simp, hon, rfl, rfl, rfl⟩
    · exact ⟨_, _, rfl, rfl, by simp, by simp, by simp, by simp, by simp, hon, rfl, rfl, rfl⟩
    · exact ⟨_, [], rfl, by simp, by simp, by simp, by simp, by simp, by simp, hon, rfl, rfl, rfl⟩

theorem off_rangeA_rangeB_opens_once_witness :
    initState.multimeterIsOn = false ∧
    (∃ s1 s2, modeChanged MultimeterMode_3V true initState = some s1 ∧
      modeChanged MultimeterMode_10V true s1 = some s2 ∧
      s1.trace = initState.trace ++ [Effect.startClock, Effect.adcOpen,
        Effect.pinSet Pin.Board_DIO21 0, Effect.pinSet Pin.Board_DIO22 0] ∧
      s2.trace = s1.trace ++ [Effect.pinSet Pin.Board_DIO21 0, Effect.pinSet Pin.Board_DIO22 1] ∧
      (s2.trace.drop initState.trace.length).count Effect.adcOpen = 1 ∧
      (s2.trace.drop initState.trace.length).count Effect.adcClose = 0 ∧
      (s2.trace.drop initState.trace.length).count Effect.adcConvertCancel = 0 ∧
      s1.multimeterIsOn = true ∧ s1.adcIsOpen = true ∧
      s2.multimeterIsOn = true ∧ s2.adcIsOpen = true ∧ s2.clockActive = true ∧
      s2.multimeterMode = MultimeterMode_10V ∧
      s2.dio21 = 0 ∧ s2.dio22 = 1) ∧
    (∃ t' w, modeChanged MultimeterMode_500mA false runningRangeA = some t' ∧
      t'.trace = runningRangeA.trace ++ w ∧
      Effect.adcOpen ∉ w ∧ Effect.adcClose ∉ w ∧ Effect.adcConvertCancel ∉ w ∧
      Effect.startClock ∉ w ∧ Effect.stopClock ∉ w ∧
      t'.multimeterIsOn = true ∧ t'.adcIsOpen = runningRangeA.adcIsOpen ∧
      t'.clockActive = runningRangeA.clockActive ∧ t'.char4 = runningRangeA.char4) :=
  ⟨rfl, (off_rangeA_rangeB_opens_once initState rfl).1,
    (off_rangeA_rangeB_opens_once initState rfl).2 runningRangeA MultimeterMode_500mA false rfl
      (by decide) (by decide)⟩

/-- C10. Starting from Running (in particular in Range-A), processing
`ModeChanged(Off)` then `ModeChanged(Range-A)` produces a stop (clock stopped,
conversion cancelled, front end closed) strictly before a start (front end
opened); immediately after the Off step the published measurement is the 4
zero bytes and the acquisition state is Idle. -/
theorem rangeA_off_rangeA_stop_before_start (s : AppState) (ok : Bool)
    (hon : s.multimeterIsOn = true) :
    ∃ s1 s2, modeChanged MultimeterMode_Off ok s = some s1 ∧
      modeChanged MultimeterMode_3V true s1 = some s2 ∧
      s1.trace = s.trace ++ [Effect.stopClock, Effect.adcConvertCancel, Effect.adcClose,
        Effect.setChar4 [0, 0, 0, 0], Effect.pinSet Pin.Board_DIO21 0,
        Effect.pinSet Pin.Board_DIO22 0] ∧
      s1.char4 = [0, 0, 0, 0] ∧ s1.multimeterIsOn = false ∧ s1.adcIsOpen = false ∧
      s1.clockActive = false ∧
      s2.trace = s1.trace ++ [Effect.startClock, Effect.adcOpen,
        Effect.pinSet Pin.Board_DIO21 0, Effect.pinSet Pin.Board_DIO22 0] ∧
      s2.multimeterIsOn = true ∧ s2.adcIsOpen = true ∧
      (s2.trace.drop s.trace.length).indexOf Effect.adcConvertCancel
        < (s2.trace.drop s.trace.length).indexOf Effect.adcOpen ∧
      (s2.trace.drop s.trace.length).indexOf Effect.adcClose
        < (s2.trace.drop s.trace.length).indexOf Effect.adcOpen ∧
      (s2.trace.drop s.trace.length).count Effect.adcClose = 1 ∧
      (s2.trace.drop s.trace.length).count Effect.adcOpen = 1 := by
  refine ⟨_, _, modeChanged_off_while_on s ok hon, modeChanged_3V_from_idle _ rfl, ?_⟩
  have e : ∀ w : List Effect, (s.trace ++ w).drop s.trace.length = w := fun w =>
    List.drop_left _ _
  simp only [List.append_assoc, List.cons_append, List.nil_append, e]
  decide

theorem rangeA_off_rangeA_stop_before_start_witness :
    runningRangeA.multimeterIsOn = true ∧
    ∃ s1 s2, modeChanged MultimeterMode_Off true runningRangeA = some s1 ∧
      modeChanged MultimeterMode_3V true s1 = some s2 ∧
      s1.trace = runningRangeA.trace ++ [Effect.stopClock, Effect.adcConvertCancel,
        Effect.adcClose, Effect.setChar4 [0, 0, 0, 0], Effect.pinSet Pin.Board_DIO21 0,
        Effect.pinSet Pin.Board_DIO22 0] ∧
      s1.char4 = [0, 0, 0, 0] ∧ s1.multimeterIsOn = false ∧ s1.adcIsOpen = false ∧
      s1.clockActive = false ∧
      s2.trace = s1.trace ++ [Effect.startClock, Effect.adcOpen,
        Effect.pinSet Pin.Board_DIO21 0, Effect.pinSet Pin.Board_DIO22 0] ∧
      s2.multimeterIsOn = true ∧ s2.adcIsOpen = true ∧
      (s2.trace.drop runningRangeA.trace.length).indexOf Effect.adcConvertCancel
        < (s2.trace.drop runningRangeA.trace.length).indexOf Effect.adcOpen ∧
      (s2.trace.drop runningRangeA.trace.length).indexOf Effect.adcClose
        < (s2.trace.drop runningRangeA.trace.length).indexOf Effect.adcOpen ∧
      (s2.trace.drop runningRangeA.trace.length).count Effect.adcClose = 1 ∧
      (s2.trace.drop runningRangeA.trace.length).count Effect.adcOpen = 1 :=
  ⟨rfl, rangeA_off_rangeA_stop_before_start runningRangeA true rfl⟩

/-! ## Mode selection, link loss and the retry buffer -/


/-- A mode change to Off or Ohm: shutdown when on, nothing but the stored mode
otherwise. -/
theorem modeChanged_off_or_ohm (s : AppState) (mode : Nat) (ok : Bool)
    (hmode : mode = MultimeterMode_Off ∨ mode = MultimeterMode_Ohm) :
    modeChanged mode ok s = some
      (if s.multimeterIsOn = true then
        { s with
          char1 := mode
          multimeterMode := mode
          multimeterIsOn := false
          clockActive := false
          adcIsOpen := false
          char4 := [0, 0, 0, 0]
          dio21 := 0
          dio22 := 0
          trace := s.trace ++ [Effect.stopClock, Effect.adcConvertCancel, Effect.adcClose,
            Effect.setChar4 [0, 0, 0, 0], Effect.pinSet Pin.Board_DIO21 0,
            Effect.pinSet Pin.Board_DIO22 0] }
      else { s with char1 := mode, multimeterMode := mode }) := by
  simp only [modeChanged, Multimeter_processCharValueChangeEvt,
    MultimeterProfile_GetParameter_CHAR1, if_true]
  rw [if_pos hmode]
  cases h : s.multimeterIsOn <;>
    simp [h, Util_stopClock, ADCBuf_convertCancel, ADCBuf_close,
      MultimeterProfile_SetParameter_CHAR4, PIN_setOutputValue, AppState.emit]

/-- A mode change to a mode other than Off and Ohm from Idle, the open
succeeding: clock started, ADC opened, switch lines selected. -/
theorem modeChanged_active_from_idle (s : AppState) (mode : Nat)
    (hidle : s.multimeterIsOn = false) (h0 : mode ≠ MultimeterMode_Off)
    (h4 : mode ≠ MultimeterMode_Ohm) :
    modeChanged mode true s = some
      (if mode = MultimeterMode_3V then
        { s with
          char1 := mode
          multimeterMode := mode
          multimeterIsOn := true
          clockActive := true
          adcIsOpen := true
          dio21 := 0
          dio22 := 0
          trace := s.trace ++ [Effect.startClock, Effect.adcOpen,
            Effect.pinSet Pin.Board_DIO21 0, Effect.pinSet Pin.Board_DIO22 0] }
      else if mode = MultimeterMode_10V then
        { s with
          char1 := mode
          multimeterMode := mode
          multimeterIsOn := true
          clockActive := true
          adcIsOpen := true
          dio21 := 0
          dio22 := 1
          trace := s.trace ++ [Effect.startClock, Effect.adcOpen,
            Effect.pinSet Pin.Board_DIO21 0, Effect.pinSet Pin.Board_DIO22 1] }
      else if mode = MultimeterMode_500mA then
        { s with
          char1 := mode
          multimeterMode := mode
          multimeterIsOn := true
          clockActive := true
          adcIsOpen := true
          dio21 := 1
          trace := s.trace ++ [Effect.startClock, Effect.adcOpen,
            Effect.pinSet Pin.Board_DIO21 1] }
      else
        { s with
          char1 := mode
          multimeterMode := mode
          multimeterIsOn := true
          clockActive := true
          adcIsOpen := true
          trace := s.trace ++ [Effect.startClock, Effect.adcOpen] }) := by
  simp only [modeChanged, Multimeter_processCharValueChangeEvt,
    MultimeterProfile_GetParameter_CHAR1, if_true]
  rw [if_neg (by simp [h0, h4])]
  simp only [hidle, Bool.not_false, if_true, Option.bind_eq_bind, Option.some_bind, bind,
    PIN_setOutputValue, AppState.emit, Util_startClock, ADCBuf_open, Bool.or_true]
  split_ifs <;> simp

/-- C11. For every prior state, processing `ModeChanged(Ohm)` returns (it never
halts or reports an error) and has exactly the same effect on the acquisition
state, the ADC, the GPIO lines, the periodic timer, the published measurement
and the calls issued as processing `ModeChanged(Off)` from the same state;
when acquisition is already Idle it changes none of these and issues no
call. -/
theorem modeChanged_Ohm_same_as_Off (s : AppState) (ok : Bool) :
    ∃ a b, modeChanged MultimeterMode_Ohm ok s = some a ∧
      modeChanged MultimeterMode_Off ok s = some b ∧
      a.multimeterIsOn = false ∧ b.multimeterIsOn = false ∧
      a.adcIsOpen = b.adcIsOpen ∧ a.dio21 = b.dio21 ∧ a.dio22 = b.dio22 ∧
      a.clockActive = b.clockActive ∧ a.char4 = b.char4 ∧ a.trace = b.trace ∧
      (s.multimeterIsOn = false →
        a.adcIsOpen = s.adcIsOpen ∧ a.dio21 = s.dio21 ∧ a.dio22 = s.dio22 ∧
        a.clockActive = s.clockActive ∧ a.char4 = s.char4 ∧ a.trace = s.trace) := by
  refine ⟨_, _, modeChanged_off_or_ohm s _ ok (Or.inr rfl),
    modeChanged_off_or_ohm s _ ok (Or.inl rfl), ?_⟩
  cases h : s.multimeterIsOn <;> simp [h]

/-- A cycle changes neither the acquisition state, the ADC, the stored mode,
the clock, the event mask, the queue nor the retry buffer. -/
theorem performPeriodicTask_frame (adc : AdcCycle) (s s' : AppState)
    (h : Multimeter_performPeriodicTask adc s = some s') :
    s'.multimeterIsOn = s.multimeterIsOn ∧ s'.adcIsOpen = s.adcIsOpen ∧
    s'.multimeterMode = s.multimeterMode ∧ s'.clockActive = s.clockActive ∧
    s'.events = s.events ∧ s'.appMsgQueue = s.appMsgQueue ∧ s'.char1 = s.char1 ∧
    s'.pAttRsp = s.pAttRsp ∧ s'.rspTxRetry = s.rspTxRetry := by
  cases h1 : adc.convertOk
  · simp [Multimeter_performPeriodicTask, h1, AppState.emit] at h
    subst h
    simp
  cases h2 : adc.adjustOk
  · simp [Multimeter_performPeriodicTask, h1, h2, AppState.emit] at h
    subst h
    simp
  cases h3 : adc.toMicroVoltsOk
  · simp [Multimeter_performPeriodicTask, h1, h2, h3, AppState.emit] at h
    subst h
    simp
  simp [Multimeter_performPeriodicTask, h1, h2, h3, AppState.emit,
    MultimeterProfile_SetParameter_CHAR4] at h
  obtain ⟨v, -, hv⟩ := h
  subst hv
  simp

theorem freeAttRsp_frame (status : Nat) (s : AppState) :
    (Multimeter_freeAttRsp status s).multimeterIsOn = s.multimeterIsOn ∧
    (Multimeter_freeAttRsp status s).adcIsOpen = s.adcIsOpen ∧
    (Multimeter_freeAttRsp status s).multimeterMode = s.multimeterMode ∧
    (Multimeter_freeAttRsp status s).clockActive = s.clockActive ∧
    (Multimeter_freeAttRsp status s).events = s.events ∧
    (Multimeter_freeAttRsp status s).appMsgQueue = s.appMsgQueue ∧
    (Multimeter_freeAttRsp status s).char1 = s.char1 ∧
    (Multimeter_freeAttRsp status s).char4 = s.char4 := by
  unfold Multimeter_freeAttRsp
  cases s.pAttRsp with
  | none => simp
  | some rsp => by_cases hs : status = SUCCESS <;> simp [hs, AppState.emit]

/-- The shutdown performed by `GAPROLE_WAITING` while the multimeter is on. -/
theorem processStateChangeEvt_waiting_on (s : AppState) (hon : s.multimeterIsOn = true) :
    Multimeter_processStateChangeEvt GAPROLE_WAITING s =
      Multimeter_freeAttRsp bleNotConnected
        { s with
          multimeterIsOn := false
          clockActive := false
          adcIsOpen := false
          char4 := [0, 0, 0, 0]
          char1 := MultimeterMode_Off
          trace := s.trace ++ [Effect.stopClock, Effect.adcConvertCancel, Effect.adcClose,
            Effect.setChar4 [0, 0, 0, 0], Effect.setChar1 MultimeterMode_Off] } := by
  simp [Multimeter_processStateChangeEvt, hon, Util_stopClock, ADCBuf_convertCancel,
    ADCBuf_close, MultimeterProfile_SetParameter_CHAR4, MultimeterProfile_SetParameter_CHAR1,
    AppState.emit]

theorem processStateChangeEvt_waiting_off (s : AppState) (hoff : s.multimeterIsOn = false) :
    Multimeter_processStateChangeEvt GAPROLE_WAITING s =
      Multimeter_freeAttRsp bleNotConnected s := by
  simp [Multimeter_processStateChangeEvt, hoff]

theorem processStateChangeEvt_timeout (s : AppState) :
    Multimeter_processStateChangeEvt GAPROLE_WAITING_AFTER_TIMEOUT s =
      Multimeter_freeAttRsp bleNotConnected s := by
  simp [Multimeter_processStateChangeEvt, GAPROLE_WAITING_AFTER_TIMEOUT, GAPROLE_WAITING]

theorem processStateChangeEvt_other (newState : Nat) (s : AppState)
    (h1 : newState ≠ GAPROLE_WAITING) (h2 : newState ≠ GAPROLE_WAITING_AFTER_TIMEOUT) :
    Multimeter_processStateChangeEvt newState s = s := by
  simp [Multimeter_processStateChangeEvt, h1, h2]

/-- A state change never turns acquisition on, never opens the ADC and never
writes the stored mode, the event mask or the queue. -/
theorem processStateChangeEvt_frame (newState : Nat) (s : AppState) :
    ((Multimeter_processStateChangeEvt newState s).multimeterIsOn = true →
      s.multimeterIsOn = true ∧ (Multimeter_processStateChangeEvt newState s).char1 = s.char1) ∧
    ((Multimeter_processStateChangeEvt newState s).adcIsOpen = true ↔
      (s.adcIsOpen = true ∧
        (s.multimeterIsOn = true → (Multimeter_processStateChangeEvt newState s).multimeterIsOn = true))) ∧
    (Multimeter_processStateChangeEvt newState s).multimeterMode = s.multimeterMode ∧
    (Multimeter_processStateChangeEvt newState s).events = s.events ∧
    (Multimeter_processStateChangeEvt newState s).appMsgQueue = s.appMsgQueue := by
  by_cases h1 : newState = GAPROLE_WAITING
  · subst h1
    cases hon : s.multimeterIsOn
    · rw [processStateChangeEvt_waiting_off s hon]
      have := freeAttRsp_frame bleNotConnected s
      simp [this, hon]
    · rw [processStateChangeEvt_waiting_on s hon]
      have := freeAttRsp_frame bleNotConnected
        { s with
          multimeterIsOn := false
          clockActive := false
          adcIsOpen := false
          char4 := [0, 0, 0, 0]
          char1 := MultimeterMode_Off
          trace := s.trace ++ [Effect.stopClock, Effect.adcConvertCancel, Effect.adcClose,
            Effect.setChar4 [0, 0, 0, 0], Effect.setChar1 MultimeterMode_Off] }
      simp [this]
  · by_cases h2 : newState = GAPROLE_WAITING_AFTER_TIMEOUT
    · subst h2
      rw [processStateChangeEvt_timeout]
      have := freeAttRsp_frame bleNotConnected s
      simp [this]
    · rw [processStateChangeEvt_other newState s h1 h2]
      simp

theorem modeChanged_preserves_invariant (mode : Nat) (s s' : AppState)
    (h : modeChanged mode true s = some s')
    (hinv : (s.adcIsOpen = true ↔ s.multimeterIsOn = true)) :
    (s'.adcIsOpen = true ↔ s'.multimeterIsOn = true) ∧
    (s'.multimeterIsOn = true →
      s'.multimeterMode ≠ MultimeterMode_Off ∧ s'.multimeterMode ≠ MultimeterMode_Ohm) := by
  by_cases hm : mode = MultimeterMode_Off ∨ mode = MultimeterMode_Ohm
  · rw [modeChanged_off_or_ohm s mode true hm] at h
    have h := Option.some.inj h
    subst h
    cases hon : s.multimeterIsOn
    · simp [hon] at hinv ⊢
      simpa using hinv
    · simp [hon]
  · have h0 : mode ≠ MultimeterMode_Off := fun e => hm (Or.inl e)
    have h4 : mode ≠ MultimeterMode_Ohm := fun e => hm (Or.inr e)
    cases hon : s.multimeterIsOn
    · rw [modeChanged_active_from_idle s mode hon h0 h4] at h
      have h := Option.some.inj h
      subst h
      split_ifs <;> simp [h0, h4]
    · rw [modeChanged_active_while_on s mode true hon h0 h4] at h
      have h := Option.some.inj h
      subst h
      split_ifs <;> simp [h0, h4, hon, hinv]

/-- C12. In every state reachable from the initial state by mode-change events
(any mode value), GAP role state-change events and periodic cycles, the
front-end open calls succeeding, the ADC is open if and only if
`multimeterIsOn` is true, and `multimeterIsOn` implies that the stored mode
is neither Off nor Ohm. -/
theorem controller_invariant (s : AppState) (h : Reachable s) :
    (s.adcIsOpen = true ↔ s.multimeterIsOn = true) ∧
    (s.multimeterIsOn = true →
      s.multimeterMode ≠ MultimeterMode_Off ∧ s.multimeterMode ≠ MultimeterMode_Ohm) := by
  induction h with
  | init => decide
  | step op s s' _ happ ih =>
    cases op with
    | modeChange mode => exact modeChanged_preserves_invariant mode s s' happ ih.1
    | stateChange newState =>
      have e : s' = Multimeter_processStateChangeEvt newState s := (Option.some.inj happ).symm
      have hf := processStateChangeEvt_frame newState s
      rw [← e] at hf
      obtain ⟨f1, f2, f3, -, -⟩ := hf
      refine ⟨?_, ?_⟩
      · constructor
        · intro ho
          have := f2.mp ho
          exact this.2 (ih.1.mp this.1)
        · intro hon
          have := f1 hon
          exact f2.mpr ⟨ih.1.mpr this.1, fun _ => hon⟩
      · intro hon
        rw [f3]
        exact ih.2 (f1 hon).1
    | periodicCycle adc =>
      obtain ⟨f1, f2, f3, -⟩ := performPeriodicTask_frame adc s s' happ
      rw [f1, f2, f3]
      exact ih

theorem controller_invariant_witness :
    Reachable runningRangeA ∧
    ((runningRangeA.adcIsOpen = true ↔ runningRangeA.multimeterIsOn = true) ∧
      (runningRangeA.multimeterIsOn = true →
        runningRangeA.multimeterMode ≠ MultimeterMode_Off ∧
        runningRangeA.multimeterMode ≠ MultimeterMode_Ohm)) :=
  ⟨Reachable.step (ControllerOp.modeChange MultimeterMode_3V) initState runningRangeA
      Reachable.init (by decide),
    controller_invariant runningRangeA
      (Reachable.step (ControllerOp.modeChange MultimeterMode_3V) initState runningRangeA
        Reachable.init (by decide))⟩

/-! ## The response-retry buffer -/

theorem freeAttRsp_pending (status : Nat) (s : AppState) (m : GattMsg)
    (h : s.pAttRsp = some m) :
    Multimeter_freeAttRsp status s =
      { s with
        pAttRsp := none
        rspTxRetry := 0
        trace := s.trace ++
          (if status = SUCCESS then [Effect.icallFreeMsg m]
           else [Effect.gattBmFree m, Effect.icallFreeMsg m]) } := by
  unfold Multimeter_freeAttRsp
  rw [h]
  by_cases hs : status = SUCCESS <;> simp [hs, AppState.emit]

theorem freeAttRsp_empty (status : Nat) (s : AppState) (h : s.pAttRsp = none) :
    Multimeter_freeAttRsp status s = s := by
  unfold Multimeter_freeAttRsp
  rw [h]

/-- C13 fails on the supervision-timeout path: from Running in Range-A,
`GAPROLE_WAITING_AFTER_TIMEOUT` leaves `multimeterIsOn` true, the ADC open
and the clock armed and issues no call, whereas the sibling case
`GAPROLE_WAITING` shuts acquisition down from the same state. -/
theorem timeout_leaves_acquisition_running :
    (Multimeter_processStateChangeEvt GAPROLE_WAITING_AFTER_TIMEOUT runningRangeA).multimeterIsOn
      = true ∧
    (Multimeter_processStateChangeEvt GAPROLE_WAITING_AFTER_TIMEOUT runningRangeA).adcIsOpen
      = true ∧
    (Multimeter_processStateChangeEvt GAPROLE_WAITING_AFTER_TIMEOUT runningRangeA).clockActive
      = true ∧
    (Multimeter_processStateChangeEvt GAPROLE_WAITING_AFTER_TIMEOUT runningRangeA).trace
      = runningRangeA.trace ∧
    (Multimeter_processStateChangeEvt GAPROLE_WAITING runningRangeA).multimeterIsOn = false ∧
    (Multimeter_processStateChangeEvt GAPROLE_WAITING runningRangeA).adcIsOpen = false ∧
    (Multimeter_processStateChangeEvt GAPROLE_WAITING runningRangeA).clockActive = false := by
  decide

/-- C14. Processing a disconnect (`GAPROLE_WAITING`) while acquisition is
Running issues, in this order: clock stop, conversion cancel, ADC close, the
published measurement set to 4 zero bytes (and the mode characteristic set to
Off), then the release of the pending ATT response, if any, with a failure
status (payload freed, then message freed); afterwards acquisition is Idle
and the retry buffer is Empty (`pAttRsp = NULL`, retry counter 0). -/
theorem disconnect_while_running_order (s : AppState) (hon : s.multimeterIsOn = true)
    (hbuf : RetryBufferOk s) :
    (Multimeter_processStateChangeEvt GAPROLE_WAITING s).trace =
      s.trace ++ [Effect.stopClock, Effect.adcConvertCancel, Effect.adcClose,
        Effect.setChar4 [0, 0, 0, 0], Effect.setChar1 MultimeterMode_Off] ++
      (match s.pAttRsp with
        | some m => [Effect.gattBmFree m, Effect.icallFreeMsg m]
        | none => []) ∧
    (Multimeter_processStateChangeEvt GAPROLE_WAITING s).multimeterIsOn = false ∧
    (Multimeter_processStateChangeEvt GAPROLE_WAITING s).adcIsOpen = false ∧
    (Multimeter_processStateChangeEvt GAPROLE_WAITING s).clockActive = false ∧
    (Multimeter_processStateChangeEvt GAPROLE_WAITING s).char4 = [0, 0, 0, 0] ∧
    (Multimeter_processStateChangeEvt GAPROLE_WAITING s).pAttRsp = none ∧
    (Multimeter_processStateChangeEvt GAPROLE_WAITING s).rspTxRetry = 0 := by
  rw [processStateChangeEvt_waiting_on s hon]
  cases hp : s.pAttRsp with
  | none =>
    rw [freeAttRsp_empty _ _ rfl]
    simpa using hbuf.1 hp
  | some m =>
    rw [freeAttRsp_pending _ _ m rfl]
    simp [bleNotConnected, SUCCESS]

theorem disconnect_while_running_order_witness :
    (runningWithPending.multimeterIsOn = true ∧ RetryBufferOk runningWithPending) ∧
    ((Multimeter_processStateChangeEvt GAPROLE_WAITING runningWithPending).trace =
      runningWithPending.trace ++ [Effect.stopClock, Effect.adcConvertCancel, Effect.adcClose,
        Effect.setChar4 [0, 0, 0, 0], Effect.setChar1 MultimeterMode_Off] ++
      (match runningWithPending.pAttRsp with
        | some m => [Effect.gattBmFree m, Effect.icallFreeMsg m]
        | none => []) ∧
    (Multimeter_processStateChangeEvt GAPROLE_WAITING runningWithPending).multimeterIsOn = false ∧
    (Multimeter_processStateChangeEvt GAPROLE_WAITING runningWithPending).adcIsOpen = false ∧
    (Multimeter_processStateChangeEvt GAPROLE_WAITING runningWithPending).clockActive = false ∧
    (Multimeter_processStateChangeEvt GAPROLE_WAITING runningWithPending).char4 = [0, 0, 0, 0] ∧
    (Multimeter_processStateChangeEvt GAPROLE_WAITING runningWithPending).pAttRsp = none ∧
    (Multimeter_processStateChangeEvt GAPROLE_WAITING runningWithPending).rspTxRetry = 0) :=
  ⟨⟨rfl, by decide⟩,
    disconnect_while_running_order runningWithPending rfl (by decide)⟩

/-- C15. When a GATT message with status `blePending` arrives while another
response is pending and the window-end subscription request succeeds,
`Multimeter_processGATTMsg` releases the old response as failed (payload and
message freed), stores only the new message with the retry counter reset to
0, and returns `FALSE`; the caller in the task loop then does not free the new
message. -/
theorem second_backpressure_evicts_first (s : AppState) (old pMsg : GattMsg)
    (hpend : s.pAttRsp = some old) (hstat : pMsg.status = blePending) :
    Multimeter_processGATTMsg pMsg SUCCESS s =
      (false,
        { s with
          pAttRsp := some pMsg
          rspTxRetry := 0
          trace := s.trace ++ [Effect.connEventNotice pMsg.connHandle SBP_CONN_EVT_END_EVT,
            Effect.gattBmFree old, Effect.icallFreeMsg old] }) ∧
    ∀ (inp : LoopInput) (m : ServiceMsg), inp.serviceMsg = some m → inp.noticeStatus = SUCCESS →
      m.fromBleToSelf = true → m.signature ≠ 0xffff → m.event = GATT_MSG_EVENT → m.gatt = pMsg →
      handleServiceMsg inp s =
        { s with
          pAttRsp := some pMsg
          rspTxRetry := 0
          trace := s.trace ++ [Effect.connEventNotice pMsg.connHandle SBP_CONN_EVT_END_EVT,
            Effect.gattBmFree old, Effect.icallFreeMsg old] } := by
  have key : Multimeter_processGATTMsg pMsg SUCCESS s =
      (false,
        { s with
          pAttRsp := some pMsg
          rspTxRetry := 0
          trace := s.trace ++ [Effect.connEventNotice pMsg.connHandle SBP_CONN_EVT_END_EVT,
            Effect.gattBmFree old, Effect.icallFreeMsg old] }) := by
    unfold Multimeter_processGATTMsg
    rw [if_pos hstat]
    simp only [if_true]
    rw [freeAttRsp_pending FAILURE _ old (by simpa [AppState.emit] using hpend)]
    simp [AppState.emit, FAILURE, SUCCESS]
  refine ⟨key, ?_⟩
  intro inp m hm hn hfrom hsig hev hg
  unfold handleServiceMsg
  rw [hm]
  simp only [hfrom, if_true, if_neg hsig, Multimeter_processStackMsg, hev, hg, hn, key]
  simp

theorem second_backpressure_evicts_first_witness :
    (runningWithPending.pAttRsp = some (sampleRsp 1) ∧ (sampleRsp 2).status = blePending) ∧
    Multimeter_processGATTMsg (sampleRsp 2) SUCCESS runningWithPending =
      (false,
        { runningWithPending with
          pAttRsp := some (sampleRsp 2)
          rspTxRetry := 0
          trace := runningWithPending.trace ++
            [Effect.connEventNotice (sampleRsp 2).connHandle SBP_CONN_EVT_END_EVT,
            Effect.gattBmFree (sampleRsp 1), Effect.icallFreeMsg (sampleRsp 1)] }) :=
  ⟨⟨rfl, rfl⟩,
    (second_backpressure_evicts_first runningWithPending (sampleRsp 1) (sampleRsp 2) rfl rfl).1⟩

theorem sendAttRsp_not_backpressured (s : AppState) (m : GattMsg) (status : Nat)
    (hpend : s.pAttRsp = some m) (h1 : status ≠ blePending)
    (h2 : status ≠ MSG_BUFFER_NOT_AVAIL) :
    Multimeter_sendAttRsp status s =
      { s with
        pAttRsp := none
        rspTxRetry := 0
        trace := s.trace ++ [Effect.gattSendRsp m, Effect.connEventNotice m.connHandle 0] ++
          (if status = SUCCESS then [Effect.icallFreeMsg m]
           else [Effect.gattBmFree m, Effect.icallFreeMsg m]) } := by
  unfold Multimeter_sendAttRsp
  rw [hpend]
  simp only [if_pos (And.intro h1 h2)]
  rw [freeAttRsp_pending status _ m (by simp [AppState.emit])]
  simp [AppState.emit]

/-- C16. In state Pending, `Multimeter_sendAttRsp` with a transport result
that is neither `blePending` nor `MSG_BUFFER_NOT_AVAIL` cancels the window-end
subscription, frees the held message and leaves the buffer Empty with retry
counter 0; when the result is `SUCCESS` the payload is not freed by the
application, and when it is any other status the payload is freed before the
message. -/
theorem sendAttRsp_final_result (s : AppState) (m : GattMsg) (status : Nat)
    (hpend : s.pAttRsp = some m) (h1 : status ≠ blePending)
    (h2 : status ≠ MSG_BUFFER_NOT_AVAIL) :
    (Multimeter_sendAttRsp status s).pAttRsp = none ∧
    (Multimeter_sendAttRsp status s).rspTxRetry = 0 ∧
    (status = SUCCESS →
      (Multimeter_sendAttRsp status s).trace = s.trace ++
        [Effect.gattSendRsp m, Effect.connEventNotice m.connHandle 0, Effect.icallFreeMsg m]) ∧
    (status ≠ SUCCESS →
      (Multimeter_sendAttRsp status s).trace = s.trace ++
        [Effect.gattSendRsp m, Effect.connEventNotice m.connHandle 0, Effect.gattBmFree m,
          Effect.icallFreeMsg m]) := by
  rw [sendAttRsp_not_backpressured s m status hpend h1 h2]
  refine ⟨rfl, rfl, ?_, ?_⟩
  · intro hs
    simp [hs]
  · intro hs
    simp [hs]

theorem sendAttRsp_final_result_witness :
    (runningWithPending.pAttRsp = some (sampleRsp 1) ∧ bleNotConnected ≠ blePending ∧
      bleNotConnected ≠ MSG_BUFFER_NOT_AVAIL) ∧
    ((Multimeter_sendAttRsp bleNotConnected runningWithPending).pAttRsp = none ∧
    (Multimeter_sendAttRsp bleNotConnected runningWithPending).rspTxRetry = 0 ∧
    (bleNotConnected = SUCCESS →
      (Multimeter_sendAttRsp bleNotConnected runningWithPending).trace =
        runningWithPending.trace ++
        [Effect.gattSendRsp (sampleRsp 1), Effect.connEventNotice (sampleRsp 1).connHandle 0,
          Effect.icallFreeMsg (sampleRsp 1)]) ∧
    (bleNotConnected ≠ SUCCESS →
      (Multimeter_sendAttRsp bleNotConnected runningWithPending).trace =
        runningWithPending.trace ++
        [Effect.gattSendRsp (sampleRsp 1), Effect.connEventNotice (sampleRsp 1).connHandle 0,
          Effect.gattBmFree (sampleRsp 1), Effect.icallFreeMsg (sampleRsp 1)])) :=
  ⟨⟨rfl, by decide, by decide⟩,
    sendAttRsp_final_result runningWithPending (sampleRsp 1) bleNotConnected rfl
      (by decide) (by decide)⟩

theorem sendAttRsp_backpressured (s : AppState) (m : GattMsg) (status : Nat)
    (hpend : s.pAttRsp = some m)
    (hbp : status = blePending ∨ status = MSG_BUFFER_NOT_AVAIL) :
    Multimeter_sendAttRsp status s =
      { s with
        rspTxRetry := (s.rspTxRetry + 1) % 256
        trace := s.trace ++ [Effect.gattSendRsp m] } := by
  unfold Multimeter_sendAttRsp
  rw [hpend]
  have : ¬ (status ≠ blePending ∧ status ≠ MSG_BUFFER_NOT_AVAIL) := by
    rcases hbp with h | h <;> simp [h]
  simp only [if_neg this]
  simp [AppState.emit]

theorem sendAttRspRepeated_backpressured (statuses : List Nat) :
    ∀ (s : AppState) (m : GattMsg), s.pAttRsp = some m → s.rspTxRetry < 256 →
      (∀ st ∈ statuses, st = blePending ∨ st = MSG_BUFFER_NOT_AVAIL) →
      (sendAttRspRepeated statuses s).pAttRsp = some m ∧
      (sendAttRspRepeated statuses s).rspTxRetry = (s.rspTxRetry + statuses.length) % 256 ∧
      (sendAttRspRepeated statuses s).trace =
        s.trace ++ List.replicate statuses.length (Effect.gattSendRsp m) := by
  induction statuses with
  | nil =>
    intro s m hpend hlt _
    refine ⟨hpend, ?_, by simp [sendAttRspRepeated]⟩
    show s.rspTxRetry = (s.rspTxRetry + 0) % 256
    omega
  | cons st rest ih =>
    intro s m hpend _ hall
    have hst := hall st (List.mem_cons_self _ _)
    have hrest : ∀ x ∈ rest, x = blePending ∨ x = MSG_BUFFER_NOT_AVAIL := fun x hx =>
      hall x (List.mem_cons_of_mem _ hx)
    have h1 := sendAttRsp_backpressured s m st hpend hst
    have hunfold : sendAttRspRepeated (st :: rest) s
        = sendAttRspRepeated rest (Multimeter_sendAttRsp st s) := rfl
    have hp1 : (Multimeter_sendAttRsp st s).pAttRsp = some m := by rw [h1]; exact hpend
    have hr1 : (Multimeter_sendAttRsp st s).rspTxRetry = (s.rspTxRetry + 1) % 256 := by rw [h1]
    have ht1 : (Multimeter_sendAttRsp st s).trace = s.trace ++ [Effect.gattSendRsp m] := by
      rw [h1]
    obtain ⟨a1, a2, a3⟩ := ih (Multimeter_sendAttRsp st s) m hp1
      (by rw [hr1]; exact Nat.mod_lt _ (by norm_num)) hrest
    rw [hunfold]
    refine ⟨a1, ?_, ?_⟩
    · rw [a2, hr1, List.length_cons]
      omega
    · rw [a3, ht1, List.length_cons, List.replicate_succ]
      simp

/-- A backpressured message is stored with the retry counter at 0. -/
theorem processGATTMsg_stores_fresh (t : AppState) (pMsg : GattMsg) (hbuf : RetryBufferOk t)
    (hstat : pMsg.status = blePending) :
    (Multimeter_processGATTMsg pMsg SUCCESS t).2.pAttRsp = some pMsg ∧
    (Multimeter_processGATTMsg pMsg SUCCESS t).2.rspTxRetry = 0 := by
  unfold Multimeter_processGATTMsg
  rw [if_pos hstat, if_pos rfl]
  refine ⟨rfl, ?_⟩
  show (Multimeter_freeAttRsp FAILURE
    (t.emit (Effect.connEventNotice pMsg.connHandle SBP_CONN_EVT_END_EVT))).rspTxRetry = 0
  rcases Option.eq_none_or_eq_some t.pAttRsp with hp | ⟨m, hp⟩
  · rw [freeAttRsp_empty FAILURE _ (by simpa [AppState.emit] using hp)]
    exact hbuf.1 hp
  · rw [freeAttRsp_pending FAILURE _ m (by simpa [AppState.emit] using hp)]

/-- C17. In state Pending with retry counter `c`, `Multimeter_sendAttRsp` with
a backpressured transport result (`blePending` or `MSG_BUFFER_NOT_AVAIL`)
keeps the same message pending, issues only the transmit attempt (no
subscription call, no release) and sets the 8-bit retry counter to
`(c + 1) mod 256`, which is `c + 1` below 255; a message is stored with the
counter at 0, and after `k` consecutive backpressured attempts on a message
whose counter starts at 0 the counter is `k mod 256` and the message is still
pending, for every `k`. -/
theorem backpressured_retry_counts (s : AppState) (m : GattMsg) (hpend : s.pAttRsp = some m) :
    (∀ status, status = blePending ∨ status = MSG_BUFFER_NOT_AVAIL →
      (Multimeter_sendAttRsp status s).pAttRsp = some m ∧
      (Multimeter_sendAttRsp status s).rspTxRetry = (s.rspTxRetry + 1) % 256 ∧
      (s.rspTxRetry < 255 → (Multimeter_sendAttRsp status s).rspTxRetry = s.rspTxRetry + 1) ∧
      (Multimeter_sendAttRsp status s).trace = s.trace ++ [Effect.gattSendRsp m]) ∧
    (∀ statuses : List Nat, (∀ st ∈ statuses, st = blePending ∨ st = MSG_BUFFER_NOT_AVAIL) →
      s.rspTxRetry = 0 →
      (sendAttRspRepeated statuses s).pAttRsp = some m ∧
      (sendAttRspRepeated statuses s).rspTxRetry = statuses.length % 256 ∧
      (sendAttRspRepeated statuses s).trace =
        s.trace ++ List.replicate statuses.length (Effect.gattSendRsp m)) ∧
    (∀ (t : AppState) (pMsg : GattMsg), RetryBufferOk t → pMsg.status = blePending →
      (Multimeter_processGATTMsg pMsg SUCCESS t).2.pAttRsp = some pMsg ∧
      (Multimeter_processGATTMsg pMsg SUCCESS t).2.rspTxRetry = 0) := by
  refine ⟨?_, ?_, fun t pMsg hb hs => processGATTMsg_stores_fresh t pMsg hb hs⟩
  · intro status hbp
    rw [sendAttRsp_backpressured s m status hpend hbp]
    refine ⟨hpend, rfl, ?_, rfl⟩
    intro hc
    show (s.rspTxRetry + 1) % 256 = s.rspTxRetry + 1
    omega
  · intro statuses hall h0
    obtain ⟨a1, a2, a3⟩ := sendAttRspRepeated_backpressured statuses s m hpend
      (by rw [h0]; norm_num) hall
    refine ⟨a1, ?_, a3⟩
    rw [a2, h0, Nat.zero_add]

theorem backpressured_retry_counts_witness :
    freshPending.pAttRsp = some (sampleRsp 1) ∧
    ((Multimeter_sendAttRsp blePending freshPending).pAttRsp = some (sampleRsp 1) ∧
      (Multimeter_sendAttRsp blePending freshPending).rspTxRetry
        = (freshPending.rspTxRetry + 1) % 256 ∧
      (freshPending.rspTxRetry < 255 →
        (Multimeter_sendAttRsp blePending freshPending).rspTxRetry
          = freshPending.rspTxRetry + 1) ∧
      (Multimeter_sendAttRsp blePending freshPending).trace
        = freshPending.trace ++ [Effect.gattSendRsp (sampleRsp 1)]) ∧
    ((sendAttRspRepeated (List.replicate 300 blePending) freshPending).pAttRsp
        = some (sampleRsp 1) ∧
      (sendAttRspRepeated (List.replicate 300 blePending) freshPending).rspTxRetry
        = (List.replicate 300 blePending).length % 256 ∧
      (sendAttRspRepeated (List.replicate 300 blePending) freshPending).trace =
        freshPending.trace ++
          List.replicate (List.replicate 300 blePending).length (Effect.gattSendRsp (sampleRsp 1))) :=
  ⟨rfl, (backpressured_retry_counts freshPending (sampleRsp 1) rfl).1 blePending (Or.inl rfl),
    (backpressured_retry_counts freshPending (sampleRsp 1) rfl).2.1
      (List.replicate 300 blePending) (fun _ h => Or.inl (List.eq_of_mem_replicate h)) rfl⟩

/-- C18. For every retry-buffer state (Empty, or Pending with any retry
count), processing a link-lost state change (`GAPROLE_WAITING` or
`GAPROLE_WAITING_AFTER_TIMEOUT`) leaves the buffer Empty with retry counter
0; the release calls issued are exactly the payload free and the message free
of the pending message, once each, when one was pending, and none
otherwise. -/
theorem link_lost_empties_retry_buffer (s : AppState) (newState : Nat)
    (hns : newState = GAPROLE_WAITING ∨ newState = GAPROLE_WAITING_AFTER_TIMEOUT)
    (hbuf : RetryBufferOk s) :
    (Multimeter_processStateChangeEvt newState s).pAttRsp = none ∧
    (Multimeter_processStateChangeEvt newState s).rspTxRetry = 0 ∧
    ∃ w, (Multimeter_processStateChangeEvt newState s).trace = s.trace ++ w ∧
      w.filter Effect.isRelease =
        (match s.pAttRsp with
          | some m => [Effect.gattBmFree m, Effect.icallFreeMsg m]
          | none => []) := by
  have hne : bleNotConnected ≠ SUCCESS := by decide
  rcases hns with h | h
  · subst h
    cases hon : s.multimeterIsOn
    · rw [processStateChangeEvt_waiting_off s hon]
      cases hp : s.pAttRsp with
      | none =>
        rw [freeAttRsp_empty _ _ hp]
        exact ⟨hp, hbuf.1 hp, [], by simp, rfl⟩
      | some m =>
        rw [freeAttRsp_pending _ _ m hp, if_neg hne]
        exact ⟨rfl, rfl, _, rfl, rfl⟩
    · rw [processStateChangeEvt_waiting_on s hon]
      cases hp : s.pAttRsp with
      | none =>
        rw [freeAttRsp_empty _ _ rfl]
        exact ⟨rfl, hbuf.1 hp, _, rfl, rfl⟩
      | some m =>
        rw [freeAttRsp_pending _ _ m rfl, if_neg hne]
        refine ⟨rfl, rfl, _, List.append_assoc _ _ _, rfl⟩
  · subst h
    rw [processStateChangeEvt_timeout]
    cases hp : s.pAttRsp with
    | none =>
      rw [freeAttRsp_empty _ _ hp]
      exact ⟨hp, hbuf.1 hp, [], by simp, rfl⟩
    | some m =>
      rw [freeAttRsp_pending _ _ m hp, if_neg hne]
      exact ⟨rfl, rfl, _, rfl, rfl⟩

theorem link_lost_empties_retry_buffer_witness :
    ((GAPROLE_WAITING_AFTER_TIMEOUT = GAPROLE_WAITING ∨
        GAPROLE_WAITING_AFTER_TIMEOUT = GAPROLE_WAITING_AFTER_TIMEOUT) ∧
      RetryBufferOk runningWithPending) ∧
    ((Multimeter_processStateChangeEvt GAPROLE_WAITING_AFTER_TIMEOUT runningWithPending).pAttRsp
      = none ∧
    (Multimeter_processStateChangeEvt GAPROLE_WAITING_AFTER_TIMEOUT runningWithPending).rspTxRetry
      = 0 ∧
    ∃ w, (Multimeter_processStateChangeEvt GAPROLE_WAITING_AFTER_TIMEOUT runningWithPending).trace
        = runningWithPending.trace ++ w ∧
      w.filter Effect.isRelease =
        (match runningWithPending.pAttRsp with
          | some m => [Effect.gattBmFree m, Effect.icallFreeMsg m]
          | none => [])) :=
  ⟨⟨Or.inr rfl, by decide⟩,
    link_lost_empties_retry_buffer runningWithPending GAPROLE_WAITING_AFTER_TIMEOUT (Or.inr rfl)
      (by decide)⟩

/-! ## The task loop -/

theorem processCharValueChangeEvt_char1 (ok : Bool) (s : AppState) :
    Multimeter_processCharValueChangeEvt MULTIMETERPROFILE_CHAR1 ok s = modeChanged s.char1 ok s :=
  rfl

theorem processCharValueChangeEvt_other (paramID : Nat) (ok : Bool) (s : AppState)
    (h : paramID ≠ MULTIMETERPROFILE_CHAR1) :
    Multimeter_processCharValueChangeEvt paramID ok s = some s := by
  unfold Multimeter_processCharValueChangeEvt
  rw [if_neg h]

/-- With a successful open a mode change always returns; it stores the mode
and leaves the event mask, the queue and the retry buffer alone. -/
theorem modeChanged_frame (mode : Nat) (s : AppState) :
    ∃ s', modeChanged mode true s = some s' ∧ s'.multimeterMode = mode ∧ s'.char1 = mode ∧
      s'.events = s.events ∧ s'.appMsgQueue = s.appMsgQueue := by
  by_cases hm : mode = MultimeterMode_Off ∨ mode = MultimeterMode_Ohm
  · refine ⟨_, modeChanged_off_or_ohm s mode true hm, ?_⟩
    split_ifs <;> simp
  · have h0 : mode ≠ MultimeterMode_Off := fun e => hm (Or.inl e)
    have h4 : mode ≠ MultimeterMode_Ohm := fun e => hm (Or.inr e)
    cases hon : s.multimeterIsOn
    · refine ⟨_, modeChanged_active_from_idle s mode hon h0 h4, ?_⟩
      split_ifs <;> simp
    · refine ⟨_, modeChanged_active_while_on s mode true hon h0 h4, ?_⟩
      split_ifs <;> simp

/-- Processing a mode change does not depend on the queue content. -/
theorem modeChanged_queue (mode : Nat) (s : AppState) (q : List SbpEvt) :
    modeChanged mode true { s with appMsgQueue := q } =
      (modeChanged mode true s).map fun t => { t with appMsgQueue := q } := by
  by_cases hm : mode = MultimeterMode_Off ∨ mode = MultimeterMode_Ohm
  · rw [modeChanged_off_or_ohm { s with appMsgQueue := q } mode true hm,
      modeChanged_off_or_ohm s mode true hm]
    simp only [Option.map_some']
    split_ifs <;> rfl
  · have h0 : mode ≠ MultimeterMode_Off := fun e => hm (Or.inl e)
    have h4 : mode ≠ MultimeterMode_Ohm := fun e => hm (Or.inr e)
    rcases Bool.eq_false_or_eq_true s.multimeterIsOn with hon | hon
    · rw [modeChanged_active_while_on { s with appMsgQueue := q } mode true hon h0 h4,
        modeChanged_active_while_on s mode true hon h0 h4]
      simp only [Option.map_some']
      split_ifs <;> rfl
    · rw [modeChanged_active_from_idle { s with appMsgQueue := q } mode hon h0 h4,
        modeChanged_active_from_idle s mode hon h0 h4]
      simp only [Option.map_some']
      split_ifs <;> rfl

theorem freeAttRsp_queue (status : Nat) (s : AppState) (q : List SbpEvt) :
    Multimeter_freeAttRsp status { s with appMsgQueue := q } =
      { Multimeter_freeAttRsp status s with appMsgQueue := q } := by
  rcases Option.eq_none_or_eq_some s.pAttRsp with hp | ⟨m, hp⟩
  · rw [freeAttRsp_empty status s hp, freeAttRsp_empty status { s with appMsgQueue := q } hp]
  · rw [freeAttRsp_pending status s m hp,
      freeAttRsp_pending status { s with appMsgQueue := q } m hp]

theorem processStateChangeEvt_queue (newState : Nat) (s : AppState) (q : List SbpEvt) :
    Multimeter_processStateChangeEvt newState { s with appMsgQueue := q } =
      { Multimeter_processStateChangeEvt newState s with appMsgQueue := q } := by
  by_cases h1 : newState = GAPROLE_WAITING
  · subst h1
    rcases Bool.eq_false_or_eq_true s.multimeterIsOn with hon | hon
    · rw [processStateChangeEvt_waiting_on { s with appMsgQueue := q } hon,
        processStateChangeEvt_waiting_on s hon, ← freeAttRsp_queue]
    · rw [processStateChangeEvt_waiting_off { s with appMsgQueue := q } hon,
        processStateChangeEvt_waiting_off s hon, freeAttRsp_queue]
  · by_cases h2 : newState = GAPROLE_WAITING_AFTER_TIMEOUT
    · subst h2
      rw [processStateChangeEvt_timeout, processStateChangeEvt_timeout, freeAttRsp_queue]
    · rw [processStateChangeEvt_other _ _ h1 h2, processStateChangeEvt_other _ _ h1 h2]

theorem processAppMsg_queue (m : SbpEvt) (s : AppState) (q : List SbpEvt) :
    Multimeter_processAppMsg m true { s with appMsgQueue := q } =
      (Multimeter_processAppMsg m true s).map fun t => { t with appMsgQueue := q } := by
  unfold Multimeter_processAppMsg
  split_ifs with h1 h2
  · rw [processStateChangeEvt_queue]; rfl
  · by_cases hp : m.state = MULTIMETERPROFILE_CHAR1
    · rw [hp, processCharValueChangeEvt_char1, processCharValueChangeEvt_char1]
      exact modeChanged_queue s.char1 s q
    · rw [processCharValueChangeEvt_other _ _ _ hp, processCharValueChangeEvt_other _ _ _ hp]
      rfl
  · rfl

theorem processStateChangeEvt_char1 (newState : Nat) (s : AppState)
    (h : newState ≠ GAPROLE_WAITING) :
    (Multimeter_processStateChangeEvt newState s).char1 = s.char1 := by
  by_cases h2 : newState = GAPROLE_WAITING_AFTER_TIMEOUT
  · subst h2
    rw [processStateChangeEvt_timeout]
    exact (freeAttRsp_frame bleNotConnected s).2.2.2.2.2.2.1
  · rw [processStateChangeEvt_other newState s h h2]

/-- Processing one application message, the open succeeding: it returns, keeps
the event mask and the queue, writes characteristic 1 only on a
`GAPROLE_WAITING` state change, and writes the stored mode only on a change of
characteristic 1, to the value of that characteristic. -/
theorem processAppMsg_frame (m : SbpEvt) (s : AppState) :
    ∃ s', Multimeter_processAppMsg m true s = some s' ∧ s'.events = s.events ∧
      s'.appMsgQueue = s.appMsgQueue ∧
      (¬ (m.event = SBP_STATE_CHANGE_EVT ∧ m.state = GAPROLE_WAITING) → s'.char1 = s.char1) ∧
      (¬ (m.event = SBP_CHAR_CHANGE_EVT ∧ m.state = MULTIMETERPROFILE_CHAR1) →
        s'.multimeterMode = s.multimeterMode) ∧
      ((m.event = SBP_CHAR_CHANGE_EVT ∧ m.state = MULTIMETERPROFILE_CHAR1) →
        s'.multimeterMode = s.char1) := by
  unfold Multimeter_processAppMsg
  have hne : SBP_STATE_CHANGE_EVT ≠ SBP_CHAR_CHANGE_EVT := by decide
  split_ifs with h1 h2
  · have hf := processStateChangeEvt_frame m.state s
    refine ⟨_, rfl, hf.2.2.2.1, hf.2.2.2.2, ?_, fun _ => hf.2.2.1, ?_⟩
    · intro hw
      exact processStateChangeEvt_char1 m.state s (fun e => hw ⟨h1, e⟩)
    · intro hc
      exact absurd (h1.symm.trans hc.1) hne
  · by_cases hp : m.state = MULTIMETERPROFILE_CHAR1
    · rw [hp, processCharValueChangeEvt_char1]
      obtain ⟨s', hs, g1, g2, g3, g4⟩ := modeChanged_frame s.char1 s
      exact ⟨s', hs, g3, g4, fun _ => g2, fun hc => absurd ⟨h2, rfl⟩ hc, fun _ => g1⟩
    · rw [processCharValueChangeEvt_other _ _ _ hp]
      exact ⟨s, rfl, rfl, rfl, fun _ => rfl, fun _ => rfl, fun hc => absurd hc.2 hp⟩
  · exact ⟨s, rfl, rfl, rfl, fun _ => rfl, fun _ => rfl, fun hc => absurd hc.1 h2⟩

theorem processMsgs_frame (q : List SbpEvt) :
    ∀ s : AppState, ∃ s', processMsgs true q s = some s' ∧ s'.events = s.events ∧
      s'.appMsgQueue = s.appMsgQueue ∧
      ((∀ m ∈ q, ¬ (m.event = SBP_STATE_CHANGE_EVT ∧ m.state = GAPROLE_WAITING)) →
        s'.char1 = s.char1) ∧
      ((∀ m ∈ q, ¬ (m.event = SBP_CHAR_CHANGE_EVT ∧ m.state = MULTIMETERPROFILE_CHAR1)) →
        s'.multimeterMode = s.multimeterMode) := by
  induction q with
  | nil => intro s; exact ⟨s, rfl, rfl, rfl, fun _ => rfl, fun _ => rfl⟩
  | cons m rest ih =>
    intro s
    obtain ⟨s1, h1, e1, q1, c1, m1, -⟩ := processAppMsg_frame m s
    obtain ⟨s2, h2, e2, q2, c2, m2⟩ := ih s1
    refine ⟨s2, ?_, e2.trans e1, q2.trans q1, ?_, ?_⟩
    · show (Multimeter_processAppMsg m true s).bind (processMsgs true rest) = some s2
      rw [h1]
      exact h2
    · intro hall
      rw [c2 (fun x hx => hall x (List.mem_cons_of_mem _ hx)),
        c1 (hall m (List.mem_cons_self _ _))]
    · intro hall
      rw [m2 (fun x hx => hall x (List.mem_cons_of_mem _ hx)),
        m1 (hall m (List.mem_cons_self _ _))]

theorem processMsgs_append (ok : Bool) (q1 q2 : List SbpEvt) :
    ∀ s : AppState, processMsgs ok (q1 ++ q2) s = (processMsgs ok q1 s).bind (processMsgs ok q2) := by
  induction q1 with
  | nil => intro s; rfl
  | cons m rest ih =>
    intro s
    show (Multimeter_processAppMsg m ok s).bind (processMsgs ok (rest ++ q2)) =
      ((Multimeter_processAppMsg m ok s).bind (processMsgs ok rest)).bind (processMsgs ok q2)
    cases Multimeter_processAppMsg m ok s with
    | none => rfl
    | some t => exact ih t

/-- The queue loop processes the messages in order and leaves the queue
empty. -/
theorem drainMsgs_eq_processMsgs (q : List SbpEvt) :
    ∀ s : AppState, drainMsgs true q { s with appMsgQueue := q } =
      (processMsgs true q s).map fun t => { t with appMsgQueue := [] } := by
  induction q with
  | nil => intro s; rfl
  | cons m rest ih =>
    intro s
    show (Multimeter_processAppMsg m true { s with appMsgQueue := rest }).bind
        (drainMsgs true rest) =
      ((Multimeter_processAppMsg m true s).bind (processMsgs true rest)).map
        fun t => { t with appMsgQueue := [] }
    rw [processAppMsg_queue]
    obtain ⟨s1, h1, -, -⟩ := processAppMsg_frame m s
    rw [h1]
    exact ih s1

theorem sendAttRsp_frame (status : Nat) (s : AppState) :
    (Multimeter_sendAttRsp status s).events = s.events ∧
    (Multimeter_sendAttRsp status s).appMsgQueue = s.appMsgQueue ∧
    (Multimeter_sendAttRsp status s).char1 = s.char1 ∧
    (Multimeter_sendAttRsp status s).multimeterMode = s.multimeterMode := by
  rcases Option.eq_none_or_eq_some s.pAttRsp with hp | ⟨m, hp⟩
  · have : Multimeter_sendAttRsp status s = s := by
      unfold Multimeter_sendAttRsp
      rw [hp]
    rw [this]
    exact ⟨rfl, rfl, rfl, rfl⟩
  · by_cases hbp : status = blePending ∨ status = MSG_BUFFER_NOT_AVAIL
    · rw [sendAttRsp_backpressured s m status hp hbp]
      exact ⟨rfl, rfl, rfl, rfl⟩
    · rw [sendAttRsp_not_backpressured s m status hp (fun e => hbp (Or.inl e))
        (fun e => hbp (Or.inr e))]
      exact ⟨rfl, rfl, rfl, rfl⟩

theorem processGATTMsg_frame (pMsg : GattMsg) (status : Nat) (s : AppState) :
    (Multimeter_processGATTMsg pMsg status s).2.events = s.events ∧
    (Multimeter_processGATTMsg pMsg status s).2.appMsgQueue = s.appMsgQueue ∧
    (Multimeter_processGATTMsg pMsg status s).2.char1 = s.char1 ∧
    (Multimeter_processGATTMsg pMsg status s).2.multimeterMode = s.multimeterMode := by
  unfold Multimeter_processGATTMsg
  split_ifs
  · have hf := freeAttRsp_frame FAILURE
      (s.emit (Effect.connEventNotice pMsg.connHandle SBP_CONN_EVT_END_EVT))
    exact ⟨hf.2.2.2.2.1, hf.2.2.2.2.2.1, hf.2.2.2.2.2.2.1, hf.2.2.1⟩
  · exact ⟨rfl, rfl, rfl, rfl⟩
  · exact ⟨rfl, rfl, rfl, rfl⟩

theorem handleServiceMsg_frame (inp : LoopInput) (s : AppState) :
    (handleServiceMsg inp s).events = s.events ∧
    (handleServiceMsg inp s).appMsgQueue = s.appMsgQueue ∧
    (handleServiceMsg inp s).char1 = s.char1 ∧
    (handleServiceMsg inp s).multimeterMode = s.multimeterMode := by
  unfold handleServiceMsg
  cases inp.serviceMsg with
  | none => exact ⟨rfl, rfl, rfl, rfl⟩
  | some m =>
    have h1 := sendAttRsp_frame inp.sendStatus s
    have h2 := processGATTMsg_frame m.gatt inp.noticeStatus s
    simp only [Multimeter_processStackMsg]
    split_ifs <;> simp [AppState.emit, h1, h2]

theorem performPeriodicTask_trace (adc : AdcCycle) (s s' : AppState)
    (h : Multimeter_performPeriodicTask adc s = some s') :
    ∃ w, s'.trace = s.trace ++ Effect.adcConvert :: w := by
  cases h1 : adc.convertOk
  · simp [Multimeter_performPeriodicTask, h1, AppState.emit] at h
    subst h
    exact ⟨[], rfl⟩
  cases h2 : adc.adjustOk
  · simp [Multimeter_performPeriodicTask, h1, h2, AppState.emit] at h
    subst h
    exact ⟨[Effect.adcAdjustRawValues], by simp⟩
  cases h3 : adc.toMicroVoltsOk
  · simp [Multimeter_performPeriodicTask, h1, h2, h3, AppState.emit] at h
    subst h
    exact ⟨[Effect.adcAdjustRawValues, Effect.adcConvertAdjustedToMicroVolts], by simp⟩
  simp [Multimeter_performPeriodicTask, h1, h2, h3, AppState.emit,
    MultimeterProfile_SetParameter_CHAR4] at h
  obtain ⟨v, -, hv⟩ := h
  subst hv
  exact ⟨[Effect.adcAdjustRawValues, Effect.adcConvertAdjustedToMicroVolts,
    Effect.setChar4 (serialize v)], by simp⟩

/-- C19. In one iteration of the task loop whose semaphore wait succeeds (the
front-end open succeeding), the whole application queue is processed, head
first, and left empty before the periodic-timer bit is tested; when the bit is
set the cycle runs on the state `s_d` that the queue processing produced, and
all calls of the queue processing precede the clock restart and the
conversion.  Consequently, if the queue holds a change of characteristic 1,
the mode the cycle scales with is the value of characteristic 1 when the last
such message was processed, which is the value the peer wrote last when no
`GAPROLE_WAITING` message is queued ahead of it. -/
theorem queue_drained_before_periodic (inp : LoopInput) (s : AppState)
    (hwait : inp.waitOk = true) (hopen : inp.openOk = true)
    (hbit : s.events &&& SBP_PERIODIC_EVT ≠ 0) :
    ∃ s_d, drainMsgs inp.openOk (handleServiceMsg inp s).appMsgQueue (handleServiceMsg inp s)
        = some s_d ∧
      (processMsgs true s.appMsgQueue (handleServiceMsg inp s)).map
        (fun t => { t with appMsgQueue := [] }) = some s_d ∧
      s_d.appMsgQueue = [] ∧ s_d.events = s.events ∧
      Multimeter_taskFxn_step inp s =
        Multimeter_performPeriodicTask inp.adc
          (Util_startClock { s_d with events := s_d.events &&& (0xFFFF - SBP_PERIODIC_EVT) }) ∧
      (∀ s', Multimeter_taskFxn_step inp s = some s' →
        s'.appMsgQueue = [] ∧ s'.multimeterMode = s_d.multimeterMode ∧
        ∃ w, s'.trace = s_d.trace ++ Effect.startClock :: Effect.adcConvert :: w) ∧
      (∀ pre post,
        s.appMsgQueue =
          pre ++ [{ event := SBP_CHAR_CHANGE_EVT, state := MULTIMETERPROFILE_CHAR1 }] ++ post →
        (∀ m ∈ post, ¬ (m.event = SBP_CHAR_CHANGE_EVT ∧ m.state = MULTIMETERPROFILE_CHAR1)) →
        ∃ s_pre, processMsgs true pre (handleServiceMsg inp s) = some s_pre ∧
          s_d.multimeterMode = s_pre.char1 ∧
          ((∀ m ∈ pre, ¬ (m.event = SBP_STATE_CHANGE_EVT ∧ m.state = GAPROLE_WAITING)) →
            s_d.multimeterMode = s.char1) ∧
          (∀ v, inp.adc.convertOk = true → inp.adc.adjustOk = true →
            inp.adc.toMicroVoltsOk = true →
            scaleMeasurement s_pre.char1 (getMedian ADC_BUFFER_SIZE inp.adc.microVolts) = some v →
            ∃ s', Multimeter_taskFxn_step inp s = some s' ∧ s'.adcValue0MicroVolt = v ∧
              s'.char4 = serialize v)) := by
  obtain ⟨fe, fq, fc, -⟩ := handleServiceMsg_frame inp s
  obtain ⟨s_q, hq, qe, -, -, -⟩ := processMsgs_frame s.appMsgQueue (handleServiceMsg inp s)
  have hdrain : drainMsgs inp.openOk (handleServiceMsg inp s).appMsgQueue (handleServiceMsg inp s)
      = some { s_q with appMsgQueue := [] } := by
    rw [hopen, fq]
    have key := drainMsgs_eq_processMsgs s.appMsgQueue (handleServiceMsg inp s)
    rw [hq] at key
    have e : ({ handleServiceMsg inp s with appMsgQueue := s.appMsgQueue } : AppState)
        = handleServiceMsg inp s := by
      rw [← fq]
    rw [e] at key
    exact key
  have hbit' : ({ s_q with appMsgQueue := [] } : AppState).events &&& SBP_PERIODIC_EVT ≠ 0 := by
    show s_q.events &&& SBP_PERIODIC_EVT ≠ 0
    rw [qe, fe]
    exact hbit
  have hstep : Multimeter_taskFxn_step inp s =
      Multimeter_performPeriodicTask inp.adc
        (Util_startClock { ({ s_q with appMsgQueue := [] } : AppState) with
          events := s_q.events &&& (0xFFFF - SBP_PERIODIC_EVT) }) := by
    unfold Multimeter_taskFxn_step
    rw [if_pos hwait]
    show (drainMsgs inp.openOk (handleServiceMsg inp s).appMsgQueue
      (handleServiceMsg inp s)).bind (servicePeriodic inp.adc) = _
    rw [hdrain]
    show servicePeriodic inp.adc { s_q with appMsgQueue := [] } = _
    unfold servicePeriodic
    rw [if_pos hbit']
  refine ⟨{ s_q with appMsgQueue := [] }, hdrain, by rw [hq]; rfl, rfl, qe.trans fe, hstep,
    ?_, ?_⟩
  · intro s' hs'
    rw [hstep] at hs'
    obtain ⟨g1, g2, g3, g4, g5, g6, -⟩ := performPeriodicTask_frame _ _ _ hs'
    obtain ⟨w, hw⟩ := performPeriodicTask_trace _ _ _ hs'
    refine ⟨g6, g3, w, ?_⟩
    rw [hw]
    simp [Util_startClock, AppState.emit]
  · intro pre post hsplit hpost
    obtain ⟨s_pre, hpre, -, -, cpre, -⟩ := processMsgs_frame pre (handleServiceMsg inp s)
    obtain ⟨s_m, hm, -, -, -, -, mm⟩ := processAppMsg_frame
      { event := SBP_CHAR_CHANGE_EVT, state := MULTIMETERPROFILE_CHAR1 } s_pre
    obtain ⟨s_e, he, -, -, -, me⟩ := processMsgs_frame post s_m
    have hall : processMsgs true s.appMsgQueue (handleServiceMsg inp s) = some s_e := by
      rw [hsplit, List.append_assoc, processMsgs_append, hpre]
      show processMsgs true
        ({ event := SBP_CHAR_CHANGE_EVT, state := MULTIMETERPROFILE_CHAR1 } :: post) s_pre = _
      show (Multimeter_processAppMsg _ true s_pre).bind (processMsgs true post) = _
      rw [hm]
      exact he
    have hse : s_q = s_e := Option.some.inj (hq.symm.trans hall)
    have hmode : s_q.multimeterMode = s_pre.char1 := by
      rw [hse, me hpost, mm ⟨rfl, rfl⟩]
    refine ⟨s_pre, hpre, hmode, ?_, ?_⟩
    · intro hnw
      show s_q.multimeterMode = s.char1
      rw [hmode, cpre hnw, fc]
    · intro v c1 c2 c3 hv
      rw [hstep]
      obtain ⟨s', hs', a1, -, a3, -⟩ := performPeriodicTask_of_scaled inp.adc
        (Util_startClock { ({ s_q with appMsgQueue := [] } : AppState) with
          events := s_q.events &&& (0xFFFF - SBP_PERIODIC_EVT) }) v c1 c2 c3
        (by
          show scaleMeasurement s_q.multimeterMode _ = some v
          rw [hmode]
          exact hv)
      exact ⟨s', hs', a1, a3⟩

theorem queue_drained_before_periodic_witness :
    ((plainInput 300000).waitOk = true ∧ (plainInput 300000).openOk = true ∧
      modeChangePending.events &&& SBP_PERIODIC_EVT ≠ 0) ∧
    ∃ s', Multimeter_taskFxn_step (plainInput 300000) modeChangePending = some s' ∧
      s'.adcValue0MicroVolt = 1000000 ∧ s'.char4 = serialize 1000000 := by
  refine ⟨⟨rfl, rfl, by decide⟩, ?_⟩
  obtain ⟨s_d, -, -, -, -, -, -, hmode⟩ :=
    queue_drained_before_periodic (plainInput 300000) modeChangePending rfl rfl (by decide)
  obtain ⟨s_pre, hpre, -, -, hv⟩ := hmode [] [] rfl (by simp)
  have e : s_pre = modeChangePending := (Option.some.inj hpre).symm
  subst e
  have hs : scaleMeasurement MultimeterMode_10V
      (getMedian ADC_BUFFER_SIZE (constantCycle 300000).microVolts) = some 1000000 := by
    rw [getMedian_constantCycle]
    exact scaleMeasurement_10V 300000 (by norm_num)
  exact hv 1000000 rfl rfl rfl hs

/-- C20 fails on the run `raceRun`: the peer selects Range-A, the periodic
clock expires while acquisition is Running, and the peer selects Off before
the task runs.  The next iteration processes the Off message (acquisition
Idle, ADC closed, clock stopped) and then still services the pending
periodic bit: it restarts the clock and calls
`Multimeter_performPeriodicTask` with `multimeterIsOn` false and the ADC
closed; the clock being armed again, its next expiry runs one more cycle. -/
theorem cycle_runs_after_off :
    raceRun.map (fun s => (s.multimeterIsOn, s.adcIsOpen, s.events, s.appMsgQueue, s.char1))
      = some (true, true, SBP_PERIODIC_EVT,
          [{ event := SBP_CHAR_CHANGE_EVT, state := MULTIMETERPROFILE_CHAR1 }],
          MultimeterMode_Off) ∧
    (raceRun.bind fun s => drainMsgs true s.appMsgQueue s).map
        (fun s => (s.multimeterIsOn, s.adcIsOpen, s.clockActive, s.events))
      = some (false, false, false, SBP_PERIODIC_EVT) ∧
    (raceRun.bind (Multimeter_taskFxn_step failedCycleInput)).map
        (fun s => (s.multimeterIsOn, s.adcIsOpen, s.clockActive, s.trace))
      = some (false, false, true,
          [Effect.startClock, Effect.adcOpen, Effect.pinSet Pin.Board_DIO21 0,
            Effect.pinSet Pin.Board_DIO22 0,
            Effect.stopClock, Effect.adcConvertCancel, Effect.adcClose,
            Effect.setChar4 [0, 0, 0, 0], Effect.pinSet Pin.Board_DIO21 0,
            Effect.pinSet Pin.Board_DIO22 0,
            Effect.startClock, Effect.adcConvert]) ∧
    (((raceRun.bind (Multimeter_taskFxn_step failedCycleInput)).bind clockExpiry).bind
        (Multimeter_taskFxn_step failedCycleInput)).map
        (fun s => (s.multimeterIsOn, s.adcIsOpen, s.clockActive, s.trace.drop 10))
      = some (false, false, true,
          [Effect.startClock, Effect.adcConvert, Effect.startClock, Effect.adcConvert]) :=
  ⟨rfl, rfl, rfl, rfl⟩

theorem freeAttRsp_retryBufferOk (status : Nat) (s : AppState) (h : RetryBufferOk s) :
    RetryBufferOk (Multimeter_freeAttRsp status s) := by
  rcases Option.eq_none_or_eq_some s.pAttRsp with hp | ⟨m, hp⟩
  · rw [freeAttRsp_empty status s hp]
    exact h
  · rw [freeAttRsp_pending status s m hp]
    exact ⟨fun _ => rfl, by show (0 : Nat) < 256; norm_num⟩

/-- The retry buffer stays in one of its two states under every operation that
touches it, from the initial state on. -/
theorem retryBufferOk_preserved (s : AppState) (h : RetryBufferOk s) :
    RetryBufferOk initState ∧
    (∀ status, RetryBufferOk (Multimeter_sendAttRsp status s)) ∧
    (∀ pMsg status, RetryBufferOk (Multimeter_processGATTMsg pMsg status s).2) ∧
    (∀ newState, RetryBufferOk (Multimeter_processStateChangeEvt newState s)) := by
  refine ⟨by decide, ?_, ?_, ?_⟩
  · intro status
    rcases Option.eq_none_or_eq_some s.pAttRsp with hp | ⟨m, hp⟩
    · have : Multimeter_sendAttRsp status s = s := by
        unfold Multimeter_sendAttRsp
        rw [hp]
      rw [this]
      exact h
    · by_cases hbp : status = blePending ∨ status = MSG_BUFFER_NOT_AVAIL
      · rw [sendAttRsp_backpressured s m status hp hbp]
        refine ⟨fun hn => ?_, Nat.mod_lt _ (by norm_num)⟩
        exact absurd (hp.symm.trans hn) (by simp)
      · rw [sendAttRsp_not_backpressured s m status hp (fun e => hbp (Or.inl e))
          (fun e => hbp (Or.inr e))]
        exact ⟨fun _ => rfl, by show (0 : Nat) < 256; norm_num⟩
  · intro pMsg status
    unfold Multimeter_processGATTMsg
    split_ifs
    · have hf := freeAttRsp_retryBufferOk FAILURE
        (s.emit (Effect.connEventNotice pMsg.connHandle SBP_CONN_EVT_END_EVT)) h
      exact ⟨fun hn => absurd hn (by simp), hf.2⟩
    · exact h
    · exact h
  · intro newState
    by_cases h1 : newState = GAPROLE_WAITING
    · subst h1
      rcases Bool.eq_false_or_eq_true s.multimeterIsOn with hon | hon
      · rw [processStateChangeEvt_waiting_on s hon]
        exact freeAttRsp_retryBufferOk _ _ h
      · rw [processStateChangeEvt_waiting_off s hon]
        exact freeAttRsp_retryBufferOk _ _ h
    · by_cases h2 : newState = GAPROLE_WAITING_AFTER_TIMEOUT
      · subst h2
        rw [processStateChangeEvt_timeout]
        exact freeAttRsp_retryBufferOk _ _ h
      · rw [processStateChangeEvt_other newState s h1 h2]
        exact h


/-! ## Failed cycles, the sentinel and backpressure -/

/-- The result of a cycle in which one of the three driver calls fails. -/
theorem performPeriodicTask_of_failure (adc : AdcCycle) (s : AppState)
    (hfail : adc.convertOk = false ∨ adc.adjustOk = false ∨ adc.toMicroVoltsOk = false) :
    Multimeter_performPeriodicTask adc s = some
      { s with
        trace := s.trace ++
          (if adc.convertOk = false then [Effect.adcConvert]
           else if adc.adjustOk = false then [Effect.adcConvert, Effect.adcAdjustRawValues]
           else [Effect.adcConvert, Effect.adcAdjustRawValues,
             Effect.adcConvertAdjustedToMicroVolts]) } := by
  cases h1 : adc.convertOk
  · simp [Multimeter_performPeriodicTask, h1, AppState.emit]
  cases h2 : adc.adjustOk
  · simp [Multimeter_performPeriodicTask, h1, h2, AppState.emit]
  cases h3 : adc.toMicroVoltsOk
  · simp [Multimeter_performPeriodicTask, h1, h2, h3, AppState.emit]
  · rw [h1, h2, h3] at hfail
    simp at hfail

theorem servicePeriodic_of_bit (adc : AdcCycle) (t : AppState)
    (hbit : t.events &&& SBP_PERIODIC_EVT ≠ 0) :
    servicePeriodic adc t =
      Multimeter_performPeriodicTask adc
        (Util_startClock { t with events := t.events &&& (0xFFFF - SBP_PERIODIC_EVT) }) := by
  unfold servicePeriodic
  rw [if_pos hbit]

/-- C21. If any of the three acquisition steps of a cycle fails (batch
conversion, raw-value adjustment, or conversion to microvolts),
`Multimeter_performPeriodicTask` returns having published nothing: the
published measurement, the stored value and bytes, the mode and the
acquisition state are unchanged, the calls issued stop at the failing step
and none of them sets the characteristic; and in the task loop the periodic
clock has been restarted before the cycle, for a failed cycle exactly as
for any cycle that returns. -/
theorem failed_cycle_publishes_nothing (adc : AdcCycle) (s : AppState)
    (hfail : adc.convertOk = false ∨ adc.adjustOk = false ∨ adc.toMicroVoltsOk = false) :
    (∃ s', Multimeter_performPeriodicTask adc s = some s' ∧
      s'.char4 = s.char4 ∧ s'.adcValue0MicroVolt = s.adcValue0MicroVolt ∧
      s'.value2copy = s.value2copy ∧ s'.multimeterMode = s.multimeterMode ∧
      s'.multimeterIsOn = s.multimeterIsOn ∧ s'.adcIsOpen = s.adcIsOpen ∧
      s'.clockActive = s.clockActive ∧
      s'.trace = s.trace ++
        (if adc.convertOk = false then [Effect.adcConvert]
         else if adc.adjustOk = false then [Effect.adcConvert, Effect.adcAdjustRawValues]
         else [Effect.adcConvert, Effect.adcAdjustRawValues,
           Effect.adcConvertAdjustedToMicroVolts]) ∧
      ∀ bytes, Effect.setChar4 bytes ∉ s'.trace.drop s.trace.length) ∧
    (s.events &&& SBP_PERIODIC_EVT ≠ 0 →
      (∃ s', servicePeriodic adc s = some s' ∧ s'.clockActive = true ∧ s'.char4 = s.char4 ∧
        s'.multimeterMode = s.multimeterMode ∧ s'.multimeterIsOn = s.multimeterIsOn ∧
        s'.events &&& SBP_PERIODIC_EVT = 0 ∧
        ∃ w, s'.trace = s.trace ++ Effect.startClock :: Effect.adcConvert :: w) ∧
      ∀ (adc2 : AdcCycle) (s2 : AppState), servicePeriodic adc2 s = some s2 →
        s2.clockActive = true ∧ s2.events &&& SBP_PERIODIC_EVT = 0 ∧
        ∃ w, s2.trace = s.trace ++ Effect.startClock :: Effect.adcConvert :: w) := by
  constructor
  · refine ⟨_, performPeriodicTask_of_failure adc s hfail, rfl, rfl, rfl, rfl, rfl, rfl, rfl, rfl,
      ?_⟩
    intro bytes
    show Effect.setChar4 bytes ∉ (s.trace ++ _).drop s.trace.length
    rw [List.drop_left]
    split_ifs <;> simp
  · intro hbit
    have hclear : ∀ e : Nat, (e &&& (0xFFFF - SBP_PERIODIC_EVT)) &&& SBP_PERIODIC_EVT = 0 := by
      intro e
      have h4 : (0xFFFF - SBP_PERIODIC_EVT) &&& SBP_PERIODIC_EVT = 0 := by decide
      rw [Nat.land_assoc, h4, Nat.and_zero]
    have hgen : ∀ (adc2 : AdcCycle) (s2 : AppState), servicePeriodic adc2 s = some s2 →
        s2.clockActive = true ∧ s2.events &&& SBP_PERIODIC_EVT = 0 ∧
        s2.char4 = s2.char4 ∧
        ∃ w, s2.trace = s.trace ++ Effect.startClock :: Effect.adcConvert :: w := by
      intro adc2 s2 h2
      rw [servicePeriodic_of_bit adc2 s hbit] at h2
      obtain ⟨-, -, -, g4, g5, -⟩ := performPeriodicTask_frame _ _ _ h2
      obtain ⟨w, hw⟩ := performPeriodicTask_trace _ _ _ h2
      refine ⟨by rw [g4]; rfl, by rw [g5]; exact hclear s.events, rfl, w, ?_⟩
      rw [hw]
      simp [Util_startClock, AppState.emit]
    refine ⟨?_, fun adc2 s2 h2 => ⟨(hgen adc2 s2 h2).1, (hgen adc2 s2 h2).2.1,
      (hgen adc2 s2 h2).2.2.2⟩⟩
    have hs := servicePeriodic_of_bit adc s hbit
    rw [performPeriodicTask_of_failure adc _ hfail] at hs
    obtain ⟨c1, c2, -, c4⟩ := hgen adc _ hs
    exact ⟨_, hs, c1, rfl, rfl, rfl, c2, c4⟩

theorem failed_cycle_publishes_nothing_witness :
    (failedCycle.convertOk = false ∨ failedCycle.adjustOk = false ∨
      failedCycle.toMicroVoltsOk = false) ∧
    ∃ s', Multimeter_performPeriodicTask failedCycle runningRangeA = some s' ∧
      s'.char4 = runningRangeA.char4 ∧
      s'.adcValue0MicroVolt = runningRangeA.adcValue0MicroVolt ∧
      s'.value2copy = runningRangeA.value2copy ∧
      s'.multimeterMode = runningRangeA.multimeterMode ∧
      s'.multimeterIsOn = runningRangeA.multimeterIsOn ∧
      s'.adcIsOpen = runningRangeA.adcIsOpen ∧
      s'.clockActive = runningRangeA.clockActive ∧
      s'.trace = runningRangeA.trace ++
        (if failedCycle.convertOk = false then [Effect.adcConvert]
         else if failedCycle.adjustOk = false then
           [Effect.adcConvert, Effect.adcAdjustRawValues]
         else [Effect.adcConvert, Effect.adcAdjustRawValues,
           Effect.adcConvertAdjustedToMicroVolts]) ∧
      ∀ bytes, Effect.setChar4 bytes ∉ s'.trace.drop runningRangeA.trace.length :=
  ⟨Or.inl rfl, (failed_cycle_publishes_nothing failedCycle runningRangeA (Or.inl rfl)).1⟩

theorem binadeExp_neg (q : ℚ) : binadeExp (-q) = binadeExp q := by
  unfold binadeExp
  rw [abs_neg]

/-- Evaluation of `roundDouble` at a negative value whose binade and nearest
significand are known. -/
theorem roundDouble_eq_of_near_neg {q : ℚ} {e z : ℤ} (hq : q < 0) (h1 : 2 ^ e ≤ -q)
    (h2 : -q < 2 ^ (e + 1)) (he : -1022 ≤ e) (hz : |q / 2 ^ (e - 52) - z| < 1 / 2)
    (hb : |(z : ℚ) * 2 ^ (e - 52)| < 2 ^ (1024 : ℕ)) :
    roundDouble q = some ((z : ℚ) * 2 ^ (e - 52)) := by
  have hu : ulpExp q = e - 52 := by
    rw [ulpExp_eq, ← binadeExp_neg, binadeExp_eq (neg_pos.mpr hq) h1 h2 he]
  have hr : roundUnbounded q = (z : ℚ) * 2 ^ (e - 52) := by
    unfold roundUnbounded
    rw [hu, roundHalfEven_eq_of_near _ _ hz]
  unfold roundDouble
  rw [hr, if_pos hb]

theorem truncToZero_of_neg {q : ℚ} {z : ℤ} (hq : q < 0) (hc : ⌈q⌉ = z) : truncToZero q = z := by
  unfold truncToZero
  rw [if_neg (not_le.mpr hq), hc]

theorem d2u_eq_none_of_neg {q : ℚ} (h : truncToZero q < 0) : d2u q = none := by
  unfold d2u
  exact if_neg (fun hc => absurd hc.1 (not_le.mpr h))

theorem d2uWrap_eq {q : ℚ} {z : ℤ} (h : truncToZero q = z) : d2uWrap q = (z % 2 ^ 32).toNat := by
  unfold d2uWrap
  rw [h]

theorem scaleMeasurement_500mA_eq_scale (v : ℕ) (hv : v ≤ 3000000) :
    scaleMeasurement MultimeterMode_500mA v = scale500mA v := by
  unfold scaleMeasurement
  rw [if_neg (by omega), if_neg (by decide), if_pos rfl]

/-- A cycle whose three driver calls succeed but whose scaled value is
undefined does not yield a state. -/
theorem performPeriodicTask_of_undefined (adc : AdcCycle) (s : AppState)
    (h1 : adc.convertOk = true) (h2 : adc.adjustOk = true) (h3 : adc.toMicroVoltsOk = true)
    (hv : scaleMeasurement s.multimeterMode (getMedian ADC_BUFFER_SIZE adc.microVolts) = none) :
    Multimeter_performPeriodicTask adc s = none := by
  simp [Multimeter_performPeriodicTask, h1, h2, h3, AppState.emit, hv]

/-- The doubles computed in Range-C for a median of 8213: the quotient by 6.85
and the difference with 1200, which is below -1. -/
theorem rangeC_doubles_8213 :
    roundDouble ((8213 : ℚ) / (7712414361871974 / 1125899906842624))
      = some (((5273161459225862 : ℤ) : ℚ) * 2 ^ ((10 : ℤ) - 52)) ∧
    roundDouble ((((5273161459225862 : ℤ) : ℚ) * 2 ^ ((10 : ℤ) - 52)) - 1200)
      = some (((-4602218597312512 : ℤ) : ℚ) * 2 ^ ((0 : ℤ) - 52)) ∧
    ((-4602218597312512 : ℤ) : ℚ) * 2 ^ ((0 : ℤ) - 52) < -1 ∧
    truncToZero (((-4602218597312512 : ℤ) : ℚ) * 2 ^ ((0 : ℤ) - 52)) = -1 := by
  refine ⟨?_, ?_, ?_, ?_⟩
  · exact roundDouble_eq_of_near (by norm_num) (by norm_num) (by norm_num) (by norm_num)
      (by rw [abs_lt]; constructor <;> norm_num)
      (by rw [abs_lt]; constructor <;> norm_num)
  · exact roundDouble_eq_of_near_neg (by norm_num) (by norm_num) (by norm_num) (by norm_num)
      (by rw [abs_lt]; constructor <;> norm_num)
      (by rw [abs_lt]; constructor <;> norm_num)
  · norm_num
  · apply truncToZero_of_neg (by norm_num)
    rw [Int.ceil_eq_iff]
    constructor <;> norm_num

/-- C22 fails in Range-C below the sensor offset.  For a median of 8213 (at
most 3,000,000) the double `m/6.85 - 1200` is below -1, so the transform does
not yield a value in `0 .. 2^32 - 2`: its conversion to `uint32_t` is
undefined (the cycle yields no state), and taken modulo `2^32` it is
`0xFFFFFFFF`, the overflow sentinel itself. -/
theorem rangeC_below_offset_hits_sentinel :
    scale500mADouble 8213 = some (((-4602218597312512 : ℤ) : ℚ) * 2 ^ ((0 : ℤ) - 52)) ∧
    ((-4602218597312512 : ℤ) : ℚ) * 2 ^ ((0 : ℤ) - 52) < -1 ∧
    truncToZero (((-4602218597312512 : ℤ) : ℚ) * 2 ^ ((0 : ℤ) - 52)) = -1 ∧
    scale500mA 8213 = none ∧
    scale500mAWrap 8213 = some 0xFFFFFFFF ∧
    scaleMeasurement MultimeterMode_500mA 8213 = none ∧
    Multimeter_performPeriodicTask (constantCycle 8213) runningRangeC = none := by
  obtain ⟨hq, hd, hlt, htr⟩ := rangeC_doubles_8213
  have hc : (7712414361871974 / 1125899906842624 : ℚ) ≠ 0 := by norm_num
  have hdiv : fdiv ((8213 : ℕ) : ℚ) (7712414361871974 / 1125899906842624)
      = some (((5273161459225862 : ℤ) : ℚ) * 2 ^ ((10 : ℤ) - 52)) :=
    (fdiv_of_ne_zero _ _ hc).trans (by rw [Nat.cast_ofNat]; exact hq)
  have hsub : fsub (((5273161459225862 : ℤ) : ℚ) * 2 ^ ((10 : ℤ) - 52)) 1200
      = some (((-4602218597312512 : ℤ) : ℚ) * 2 ^ ((0 : ℤ) - 52)) := hd
  have hnone : d2u (((-4602218597312512 : ℤ) : ℚ) * 2 ^ ((0 : ℤ) - 52)) = none :=
    d2u_eq_none_of_neg (by rw [htr]; norm_num)
  have hwrap : d2uWrap (((-4602218597312512 : ℤ) : ℚ) * 2 ^ ((0 : ℤ) - 52)) = 0xFFFFFFFF := by
    rw [d2uWrap_eq htr]
    decide
  have hs : scale500mA 8213 = none :=
    bind_eq_of_eq_some roundDouble_six_eighty_five
      (bind_eq_of_eq_some hdiv (bind_eq_of_eq_some hsub hnone))
  have hsm : scaleMeasurement MultimeterMode_500mA 8213 = none :=
    (scaleMeasurement_500mA_eq_scale 8213 (by norm_num)).trans hs
  have hv : scaleMeasurement MultimeterMode_500mA
      (getMedian ADC_BUFFER_SIZE (constantCycle 8213).microVolts) = none := by
    rw [getMedian_constantCycle]
    exact hsm
  refine ⟨?_, hlt, htr, hs, ?_, hsm, ?_⟩
  · exact bind_eq_of_eq_some roundDouble_six_eighty_five (bind_eq_of_eq_some hdiv hsub)
  · exact bind_eq_of_eq_some roundDouble_six_eighty_five
      (bind_eq_of_eq_some hdiv (bind_eq_of_eq_some hsub (congrArg some hwrap)))
  · exact performPeriodicTask_of_undefined (constantCycle 8213) runningRangeC rfl rfl rfl hv

/-- C23, as stated, fails when the window-end subscription request fails: the
message is not stored (from Empty the buffer stays Empty, from Pending it
keeps the old message), its payload is freed and the function returns
`TRUE`. -/
theorem backpressure_not_stored_when_notice_fails :
    (sampleRsp 2).status = blePending ∧
    (Multimeter_processGATTMsg (sampleRsp 2) FAILURE initState).1 = true ∧
    (Multimeter_processGATTMsg (sampleRsp 2) FAILURE initState).2.pAttRsp = none ∧
    (Multimeter_processGATTMsg (sampleRsp 2) FAILURE initState).2.trace =
      [Effect.connEventNotice 0 SBP_CONN_EVT_END_EVT, Effect.gattBmFree (sampleRsp 2)] ∧
    (Multimeter_processGATTMsg (sampleRsp 2) FAILURE runningWithPending).2.pAttRsp
      = some (sampleRsp 1) ∧
    (Multimeter_processGATTMsg (sampleRsp 2) FAILURE runningWithPending).2.pAttRsp
      ≠ some (sampleRsp 2) := by
  decide

/-- C23, amended. For every GATT message reported with status `blePending`,
from either Empty or Pending: when the window-end subscription request
succeeds, after `Multimeter_processGATTMsg` the retry buffer is Pending and
holds exactly that message, the function returns `FALSE`, and the only
releases issued are those of a previously pending message; when the request
fails, the message is not stored (the buffer is unchanged), its payload is
freed and the function returns `TRUE`, so that the caller frees the
message. -/
theorem backpressure_stored_when_notice_ok (s : AppState) (pMsg : GattMsg) (noticeStatus : Nat)
    (hstat : pMsg.status = blePending) :
    (noticeStatus = SUCCESS →
      (Multimeter_processGATTMsg pMsg noticeStatus s).1 = false ∧
      (Multimeter_processGATTMsg pMsg noticeStatus s).2.pAttRsp = some pMsg ∧
      ∃ w, (Multimeter_processGATTMsg pMsg noticeStatus s).2.trace = s.trace ++ w ∧
        w.filter Effect.isRelease =
          (match s.pAttRsp with
            | some old => [Effect.gattBmFree old, Effect.icallFreeMsg old]
            | none => [])) ∧
    (noticeStatus ≠ SUCCESS →
      (Multimeter_processGATTMsg pMsg noticeStatus s).1 = true ∧
      (Multimeter_processGATTMsg pMsg noticeStatus s).2.pAttRsp = s.pAttRsp ∧
      (Multimeter_processGATTMsg pMsg noticeStatus s).2.rspTxRetry = s.rspTxRetry ∧
      (Multimeter_processGATTMsg pMsg noticeStatus s).2.trace = s.trace ++
        [Effect.connEventNotice pMsg.connHandle SBP_CONN_EVT_END_EVT,
          Effect.gattBmFree pMsg]) := by
  have hne : FAILURE ≠ SUCCESS := by decide
  constructor
  · intro hok
    unfold Multimeter_processGATTMsg
    rw [if_pos hstat, if_pos hok]
    refine ⟨rfl, rfl, ?_⟩
    show ∃ w, (Multimeter_freeAttRsp FAILURE
      (s.emit (Effect.connEventNotice pMsg.connHandle SBP_CONN_EVT_END_EVT))).trace
        = s.trace ++ w ∧ _
    rcases Option.eq_none_or_eq_some s.pAttRsp with hp | ⟨old, hp⟩
    · rw [freeAttRsp_empty FAILURE _ (by simpa [AppState.emit] using hp), hp]
      exact ⟨_, rfl, rfl⟩
    · rw [freeAttRsp_pending FAILURE _ old (by simpa [AppState.emit] using hp), hp,
        if_neg hne]
      exact ⟨_, List.append_assoc _ _ _, rfl⟩
  · intro hfail
    unfold Multimeter_processGATTMsg
    rw [if_pos hstat, if_neg hfail]
    exact ⟨rfl, rfl, rfl, by simp [AppState.emit]⟩

theorem backpressure_stored_when_notice_ok_witness :
    (sampleRsp 2).status = blePending ∧
    ((SUCCESS = SUCCESS →
      (Multimeter_processGATTMsg (sampleRsp 2) SUCCESS runningWithPending).1 = false ∧
      (Multimeter_processGATTMsg (sampleRsp 2) SUCCESS runningWithPending).2.pAttRsp
        = some (sampleRsp 2) ∧
      ∃ w, (Multimeter_processGATTMsg (sampleRsp 2) SUCCESS runningWithPending).2.trace
          = runningWithPending.trace ++ w ∧
        w.filter Effect.isRelease =
          (match runningWithPending.pAttRsp with
            | some old => [Effect.gattBmFree old, Effect.icallFreeMsg old]
            | none => [])) ∧
    (SUCCESS ≠ SUCCESS →
      (Multimeter_processGATTMsg (sampleRsp 2) SUCCESS runningWithPending).1 = true ∧
      (Multimeter_processGATTMsg (sampleRsp 2) SUCCESS runningWithPending).2.pAttRsp
        = runningWithPending.pAttRsp ∧
      (Multimeter_processGATTMsg (sampleRsp 2) SUCCESS runningWithPending).2.rspTxRetry
        = runningWithPending.rspTxRetry ∧
      (Multimeter_processGATTMsg (sampleRsp 2) SUCCESS runningWithPending).2.trace
        = runningWithPending.trace ++
        [Effect.connEventNotice (sampleRsp 2).connHandle SBP_CONN_EVT_END_EVT,
          Effect.gattBmFree (sampleRsp 2)])) :=
  ⟨rfl, backpressure_stored_when_notice_ok runningWithPending (sampleRsp 2) SUCCESS rfl⟩

/-- Where the sentinel is reserved: in Range-A and Range-B for every median up
to 3,000,000, and in Range-C from the sensor offset 8220 upward, the scaled
value is defined and below `0xFFFFFFFF`. -/
theorem scaleMeasurement_below_sentinel (mode m : ℕ) (hm : m ≤ 3000000)
    (hmode : mode = MultimeterMode_3V ∨ mode = MultimeterMode_10V ∨
      (mode = MultimeterMode_500mA ∧ 8220 ≤ m)) :
    ∃ v, scaleMeasurement mode m = some v ∧ v < 0xFFFFFFFF := by
  rcases hmode with h | h | ⟨h, hlo⟩
  · subst h
    exact ⟨m, scaleMeasurement_3V m hm, by omega⟩
  · subst h
    exact ⟨10 * m / 3, scaleMeasurement_10V m hm, by omega⟩
  · subst h
    exact ⟨20 * m / 137 - 1200, scaleMeasurement_500mA m hlo hm, by omega⟩

end Multimeter
